import Mathlib

/-!
# Verification of the snake game server room engine

Shallow embedding of `snake_server.py` (and the shared constants of
`snake_protocol.py`): the room data model, join/leave bookkeeping, the
per-tick simulation `step` (intent, arbitration, commit, death cleanup,
food replenishment), `end_game`, the auto-start pass of the game loop and
the input handler.  Randomness (food placement, spawn positions) is
modelled by an explicit oracle: a list of candidate cells consumed in
draw order; the neural-network bot policy is an external input and is
modelled as an oracle giving each alive bot its new direction (the code
loads an arbitrary, possibly untrained, model, so any direction output is
realizable).  Python dicts are modelled as insertion-ordered association
lists, Python sets whose iteration order matters (`dying_ids`,
`pending_deaths`) as insertion-ordered duplicate-free lists.
-/

namespace Snake

/-- A board cell; next-head computations may leave the map, hence `Int`. -/
abbrev Cell := Int × Int

/-- `MAP_WIDTH` from `snake_protocol.py`. -/
def MAP_WIDTH : Int := 50
/-- `MAP_HEIGHT` from `snake_protocol.py`. -/
def MAP_HEIGHT : Int := 50
/-- `ROOM_CAPACITY` from `snake_protocol.py`. -/
def ROOM_CAPACITY : Nat := 10

/-- One entry of `Room.players` (class `PlayerState`; bots carry the same
mutable fields, their policy is externalized to the direction oracle). -/
structure PlayerState where
  player_id : Nat
  username : String
  connected : Bool
  alive : Bool
  score : Nat
  direction : Int × Int
  body : List Cell
  body_set : Finset Cell
  is_bot : Bool
  eliminated : Bool
deriving DecidableEq

/-- `PlayerState.__init__`: the defaults a freshly constructed player gets. -/
def PlayerState.new (pid : Nat) (name : String) : PlayerState :=
  { player_id := pid
    username := name
    connected := true
    alive := true
    score := 0
    direction := (1, 0)
    body := []
    body_set := ∅
    is_bot := false
    eliminated := false }

/-- `BotPlayer.__init__`: a bot is a player without a socket, flagged `is_bot`. -/
def PlayerState.newBot (pid : Nat) (name : String) : PlayerState :=
  { PlayerState.new pid name with is_bot := true }

/-- Class `Room`: one game room.  `players` is the insertion-ordered
player map, `pending_deaths` the insertion-ordered model of the Python
set of the same name. -/
structure Room where
  capacity : Nat
  status : String
  players : List PlayerState
  host_id : Option Nat
  food : List Cell
  occupied_set : Finset Cell
  tick_id : Nat
  death_order : List Nat
  countdown_deadline : Option Nat
  pending_deaths : List Nat
deriving DecidableEq

/-- `Room.__init__`. -/
def Room.new : Room :=
  { capacity := ROOM_CAPACITY
    status := "IDLE"
    players := []
    host_id := none
    food := []
    occupied_set := ∅
    tick_id := 0
    death_order := []
    countdown_deadline := none
    pending_deaths := [] }

/-- `Room._is_benched_bot`. -/
def isBenchedBot (p : PlayerState) : Bool :=
  p.is_bot && !p.alive && !p.eliminated

/-- `Room.counted_players`: standby (benched) bots are not counted. -/
def Room.countedPlayers (r : Room) : List PlayerState :=
  r.players.filter (fun p => !isBenchedBot p)

/-- `Room.counted_player_count`. -/
def Room.countedPlayerCount (r : Room) : Nat :=
  r.countedPlayers.length

/-- Dict lookup `self.players[pid]` on the insertion-ordered player map. -/
def lookupPlayer (ps : List PlayerState) (pid : Nat) : Option PlayerState :=
  ps.find? (fun p => p.player_id == pid)

/-- In-place mutation of one player object, keyed by id. -/
def updatePlayer (ps : List PlayerState) (pid : Nat) (f : PlayerState → PlayerState) :
    List PlayerState :=
  ps.map (fun p => if p.player_id == pid then f p else p)

/-- `self.players[player.player_id] = player`: overwrite or append. -/
def upsertPlayer (ps : List PlayerState) (pl : PlayerState) : List PlayerState :=
  if ps.any (fun p => p.player_id == pl.player_id) then
    ps.map (fun p => if p.player_id == pl.player_id then pl else p)
  else ps ++ [pl]

/-- Insertion into a Python set modelled as a duplicate-free list. -/
def pushUnique (l : List Nat) (x : Nat) : List Nat :=
  if x ∈ l then l else l ++ [x]

/-! ## Input handling (`SnakeServer.handler`, `MSG_INPUT` branch)

The handler guards on `player.alive`, saves `old_dir`, and accepts the
requested direction only when it is not the 180° reverse of `old_dir`;
an accepted direction is written to `player.direction` immediately. -/

/-- The `MSG_INPUT` branch of the handler, acting on one player. -/
def handleInput (p : PlayerState) (d : String) : PlayerState :=
  if !p.alive then p
  else
    let old := p.direction
    let nd : Option (Int × Int) :=
      if d = "up" ∧ old ≠ (0, 1) then some (0, -1)
      else if d = "down" ∧ old ≠ (0, -1) then some (0, 1)
      else if d = "left" ∧ old ≠ (1, 0) then some (-1, 0)
      else if d = "right" ∧ old ≠ (-1, 0) then some (1, 0)
      else none
    match nd with
    | some v => { p with direction := v }
    | none => p

/-- The unit vector an input name requests (`up/down/left/right`). -/
def inputVec (d : String) : Option (Int × Int) :=
  if d = "up" then some (0, -1)
  else if d = "down" then some (0, 1)
  else if d = "left" then some (-1, 0)
  else if d = "right" then some (1, 0)
  else none

/-! ## Join and leave (`Room.add_player`, `Room.remove_player`) -/

/-- The `while len(active_bots) > 1: bench` loop of `add_player`: pops
active bots from the end of the filtered list until one remains, so every
alive bot except the first (in map order) is benched. -/
def benchBots (ps : List PlayerState) : List PlayerState :=
  match ps.find? (fun p => p.is_bot && p.alive) with
  | none => ps
  | some first =>
      ps.map (fun p =>
        if p.is_bot && p.alive && p.player_id != first.player_id then
          { p with alive := false, connected := false }
        else p)

/-- `Room.add_player`: reject on counted count ≥ capacity; join as dead
spectator while RUNNING; first player becomes host; a joining human while
WAITING benches all but one alive bot; IDLE rooms become WAITING. -/
def addPlayer (r : Room) (pl : PlayerState) : Room × Bool × Option String :=
  if r.countedPlayerCount ≥ r.capacity then (r, false, some "ROOM_FULL")
  else
    let pl := if r.status = "RUNNING" then { pl with alive := false } else pl
    let players := upsertPlayer r.players pl
    let host := if r.host_id = none then some pl.player_id else r.host_id
    let players :=
      if pl.is_bot = false ∧ players.countP (fun p => !p.is_bot) ≤ 4 ∧
          r.status = "WAITING" then
        benchBots players
      else players
    let status := if r.status = "IDLE" then "WAITING" else r.status
    ({ r with players := players, host_id := host, status := status }, true, none)

/-- `Room.remove_player`: mark disconnected; while WAITING delete the
player, re-electing the host as the first remaining map entry; while
RUNNING mark dead and queue in `pending_deaths`.  Afterwards (in every
case) reset all bot scores if no connected human remains. -/
def removePlayer (r : Room) (pid : Nat) : Room :=
  let r1 :=
    if (lookupPlayer r.players pid).isSome then
      let players := updatePlayer r.players pid (fun p => { p with connected := false })
      if r.status = "WAITING" then
        let players2 := players.filter (fun p => p.player_id ≠ pid)
        let host :=
          if r.host_id = some pid then players2.head?.map (·.player_id) else r.host_id
        let status := if players2 = [] then "IDLE" else r.status
        { r with players := players2, host_id := host, status := status }
      else if r.status = "RUNNING" then
        { r with
          players := updatePlayer players pid (fun p => { p with alive := false }),
          pending_deaths := pushUnique r.pending_deaths pid }
      else { r with players := players }
    else r
  if r1.players.all (fun p => p.is_bot || !p.connected) then
    { r1 with
      players := r1.players.map (fun p => if p.is_bot then { p with score := 0 } else p) }
  else r1

/-! ## Food (`Room.spawn_food`)

The random draws are an explicit oracle list; the code makes at most 100
attempts, modelled by capping the consumed stream at 100 draws. -/

/-- The attempt loop of `spawn_food` on an explicit draw stream. -/
def spawnFoodAux (occ : Finset Cell) : List Cell → List Cell → List Cell
  | food, [] => food
  | food, d :: ds =>
      if food.length < 3 then
        if d ∉ occ ∧ d ∉ food then spawnFoodAux occ (food ++ [d]) ds
        else spawnFoodAux occ food ds
      else food

/-- `Room.spawn_food`: replenish towards 3 foods, skipping occupied and
existing-food cells, at most 100 attempts. -/
def spawnFood (occ : Finset Cell) (food : List Cell) (draws : List Cell) : List Cell :=
  spawnFoodAux occ food (draws.take 100)

/-! ## Game start (`Room.start_game`) -/

/-- The spawn x-range `[spawn_x_min, spawn_x_max]`, with the fallback swap. -/
def spawnRangeX : Int × Int :=
  let lo := max 2 (MAP_WIDTH / 5)
  let hi := min (MAP_WIDTH - 3) (MAP_WIDTH - MAP_WIDTH / 5)
  if lo > hi then (2, MAP_WIDTH - 3) else (lo, hi)

/-- The spawn y-range `[spawn_y_min, spawn_y_max]`, with the fallback swap. -/
def spawnRangeY : Int × Int :=
  let lo := max 2 (MAP_HEIGHT / 5)
  let hi := min (MAP_HEIGHT - 3) (MAP_HEIGHT - MAP_HEIGHT / 5)
  if lo > hi then (2, MAP_HEIGHT - 3) else (lo, hi)

/-- Whether a cell can be produced by the two `randint` draws of the spawn
loop.  An oracle draw outside this range is impossible for the real RNG
and is treated as a failed attempt. -/
def inSpawnRange (c : Cell) : Prop :=
  spawnRangeX.1 ≤ c.1 ∧ c.1 ≤ spawnRangeX.2 ∧ spawnRangeY.1 ≤ c.2 ∧ c.2 ≤ spawnRangeY.2

instance (c : Cell) : Decidable (inSpawnRange c) := by
  unfold inSpawnRange; infer_instance

/-- The length-3 starting body `[(sx,sy), (sx-1,sy), (sx-2,sy)]`. -/
def placeBody (c : Cell) : List Cell := [c, (c.1 - 1, c.2), (c.1 - 2, c.2)]

/-- One player's spawn-attempt loop: consume draws (bounded fuel, 100 in
the code) until one is in range and its head cell collides with no
player's `body_set`; return the found cell and the remaining stream. -/
def trySpawn (ps : List PlayerState) : Nat → List Cell → Option Cell × List Cell
  | 0, ds => (none, ds)
  | _ + 1, [] => (none, [])
  | fuel + 1, d :: ds =>
      if inSpawnRange d ∧ ps.all (fun q => d ∉ q.body_set) then (some d, ds)
      else trySpawn ps fuel ds

/-- Spawning of one (alive) player inside `start_game`: clear the body,
attempt a spot, and on success place the length-3 body pointing right;
on failure mark the player dead (could not spawn). -/
def spawnOne (st : List PlayerState × Finset Cell × List Cell) (pid : Nat) :
    List PlayerState × Finset Cell × List Cell :=
  let (ps, occ, draws) := st
  let ps1 := updatePlayer ps pid (fun p => { p with body := [], body_set := ∅ })
  match trySpawn ps1 100 draws with
  | (some c, rest) =>
      let b := placeBody c
      (updatePlayer ps1 pid
        (fun p => { p with body := b, body_set := b.toFinset, direction := (1, 0) }),
       occ ∪ b.toFinset, rest)
  | (none, rest) =>
      (updatePlayer ps1 pid (fun p => { p with alive := false }), occ, rest)

/-- `Room.start_game`: revive every player (humans alive, eliminated and
scores reset), keep exactly one bot alive when a connected human is
present (benching the rest), reset round state, prune disconnected
humans, spawn the alive snakes in map order and place three foods. -/
def startGame (r : Room) (spawnDraws foodDraws : List Cell) : Room :=
  let ps := r.players.map (fun p =>
    let p := { p with eliminated := false, score := 0 }
    if p.is_bot then p else { p with alive := true })
  let humanConn := ps.countP (fun p => !p.is_bot && p.connected)
  let target : Nat := if humanConn > 0 then 1 else 0
  let ps := (ps.foldl (fun (acc : List PlayerState × Nat) p =>
      if p.is_bot then
        if acc.2 < target then
          (acc.1 ++ [{ p with alive := true, connected := true }], acc.2 + 1)
        else
          (acc.1 ++ [{ p with alive := false, connected := false }], acc.2 + 1)
      else (acc.1 ++ [p], acc.2)) ([], 0)).1
  let ps := ps.filter (fun p => p.connected || p.is_bot)
  let aliveIds := (ps.filter (·.alive)).map (·.player_id)
  let sres := aliveIds.foldl spawnOne (ps, (∅ : Finset Cell), spawnDraws)
  let food := spawnFood sres.2.1 [] foodDraws
  { r with players := sres.1, status := "RUNNING", tick_id := 0, death_order := [],
           occupied_set := sres.2.1, pending_deaths := [], food := food }

/-! ## End of round (`Room.end_game`)

The rank computation and the GAME_OVER broadcast are pure outputs and not
part of the room state; the state effects are: every score reset to 0,
status forced to IDLE (both assignments in the source write IDLE),
countdown cleared, host re-elected as the first connected player in map
order, or null if none is connected. -/

/-- `Room.end_game` (state effects only). -/
def endGame (r : Room) : Room :=
  let ps := r.players.map (fun p => { p with score := 0 })
  { r with players := ps, status := "IDLE",
           host_id := (ps.filter (·.connected)).head?.map (·.player_id),
           countdown_deadline := none }

/-! ## The tick (`Room.step`)

Four phases after the lifecycle guards: intent, arbitration, commit,
death cleanup, then food replenishment.  The broadcast delta's `moves`
list is returned alongside the new room.  The bot policy (`get_move`,
which only rewrites `direction`) is an oracle `BotOracle`; `none` keeps
the current direction (the policy's straight move). -/

/-- One entry of the broadcast delta's `moves` list. -/
inductive MoveMsg where
  | move (pid : Nat) (head_add : Cell) (tail_remove : Option Cell) (score : Nat)
  | dead (pid : Nat) (reason : String)
  | revived (pid : Nat) (body : List Cell) (score : Nat)
deriving DecidableEq

/-- External direction choice for each alive bot at this tick. -/
def BotOracle := Nat → Option (Int × Int)

/-- The `get_move` call for one player: an alive bot takes the oracle's
direction (or keeps its own), everyone else is untouched. -/
def botMoveOne (bd : BotOracle) (p : PlayerState) : PlayerState :=
  if p.is_bot && p.alive then
    match bd p.player_id with
    | some v => { p with direction := v }
    | none => p
  else p

/-- The bot-logic pass: each alive bot's `get_move` rewrites its direction. -/
def botPhase (bd : BotOracle) (ps : List PlayerState) : List PlayerState :=
  ps.map (botMoveOne bd)

/-- A Phase 1 record: `{next_head, will_grow, tail_to_free}`. -/
structure Intent where
  next_head : Cell
  will_grow : Bool
  tail_to_free : Option Cell
deriving DecidableEq

/-- `next_head = head + direction`.  (The code indexes `body[0]` and
would raise on an empty body; the model totalizes with `(0,0)`.) -/
def nextHeadOf (p : PlayerState) : Cell :=
  let h := p.body.headD (0, 0)
  (h.1 + p.direction.1, h.2 + p.direction.2)

/-- Phase 1 for one alive player, against the food list at tick start. -/
def intentOf (food : List Cell) (p : PlayerState) : Intent :=
  let nh := nextHeadOf p
  let wg := decide (nh ∈ food)
  { next_head := nh, will_grow := wg,
    tail_to_free := if wg then none else p.body.getLast? }

/-- The intent table, keyed by player id over the alive list. -/
def intentsOf (food : List Cell) (alive : List PlayerState) : Nat → Intent :=
  fun pid =>
    match alive.find? (fun p => p.player_id == pid) with
    | some p => intentOf food p
    | none => { next_head := (0, 0), will_grow := false, tail_to_free := none }

/-- Wall check: the complement of `0 <= nx < MAP_WIDTH and 0 <= ny < MAP_HEIGHT`. -/
def outOfBounds (c : Cell) : Prop :=
  ¬ (0 ≤ c.1 ∧ c.1 < MAP_WIDTH ∧ 0 ≤ c.2 ∧ c.2 < MAP_HEIGHT)

instance (c : Cell) : Decidable (outOfBounds c) := by
  unfold outOfBounds; infer_instance

/-- Write into the `death_reasons` dict (last write wins per key). -/
def setReason (rs : List (Nat × String)) (pid : Nat) (s : String) : List (Nat × String) :=
  if rs.any (fun e => e.1 == pid) then
    rs.map (fun e => if e.1 == pid then (pid, s) else e)
  else rs ++ [(pid, s)]

/-- `death_reasons.get(pid, "collision")`. -/
def getReason (rs : List (Nat × String)) (pid : Nat) : String :=
  ((rs.find? (fun e => e.1 == pid)).map (·.2)).getD "collision"

/-- One comparison of the head-to-head scan: another alive player with
the same next head marks both as dying with reason "head-on". -/
def headOnOne (intents : Nat → Intent) (p : PlayerState)
    (acc : List Nat × List (Nat × String)) (other : PlayerState) :
    List Nat × List (Nat × String) :=
  if other.player_id ≠ p.player_id ∧
      (intents other.player_id).next_head = (intents p.player_id).next_head then
    (pushUnique (pushUnique acc.1 p.player_id) other.player_id,
     setReason (setReason acc.2 p.player_id "head-on") other.player_id "head-on")
  else acc

/-- The head-to-head scan for one player `p` over all alive players. -/
def headOnScan (alive : List PlayerState) (intents : Nat → Intent) (p : PlayerState)
    (acc : List Nat × List (Nat × String)) : List Nat × List (Nat × String) :=
  alive.foldl (headOnOne intents p) acc

/-- The Phase 2 checks for one alive player: wall, body (a cell vacated
this tick is passable), then the head-to-head scan. -/
def arbOne (r2 : Room) (alive : List PlayerState) (intents : Nat → Intent)
    (tails : Finset Cell) (acc : List Nat × List (Nat × String)) (p : PlayerState) :
    List Nat × List (Nat × String) :=
  let nh := (intents p.player_id).next_head
  if outOfBounds nh then
    (pushUnique acc.1 p.player_id, setReason acc.2 p.player_id "wall")
  else if nh ∈ r2.occupied_set ∧ nh ∉ tails then
    (pushUnique acc.1 p.player_id, setReason acc.2 p.player_id "body")
  else headOnScan alive intents p acc

/-- Phase 2: pre-seed with `pending_deaths`, then for each alive player
in map order run the wall / body / head-to-head checks. -/
def computeDying (r2 : Room) (alive : List PlayerState) (intents : Nat → Intent)
    (tails : Finset Cell) : List Nat × List (Nat × String) :=
  alive.foldl (arbOne r2 alive intents tails)
    (r2.pending_deaths.foldl pushUnique [], ([] : List (Nat × String)))

/-- The state threaded through the Phase 3 commit loop. -/
structure CommitSt where
  players : List PlayerState
  occ : Finset Cell
  food : List Cell
  moves : List MoveMsg
  eaten : Bool
deriving DecidableEq

/-- The state threaded through the Phase 4 cleanup loop. -/
structure CleanupSt where
  players : List PlayerState
  occ : Finset Cell
  dord : List Nat
  moves : List MoveMsg
  draws : List Cell
deriving DecidableEq

/-- Phase 3 commit for one surviving alive player: prepend the next head
everywhere; when not growing pop the tail (`popTail`; the prepended body
is never empty).  The source then branches on the truthiness of
`tail_remove`, giving three outcomes, spelled out here as nested ifs:
with `will_grow` no tail is popped, so `tail_remove` is None and the
else-branch runs (score+1, `food_eaten`, drop the consumed food cell);
with a popped tail different from the next head, the tail is freed from
the body set and the occupied set; with the popped tail equal to the
next head (the tail chase), `tail_remove` is again None and the same
score/food else-branch runs. -/
def commitOne (dying : List Nat) (intents : Nat → Intent) (st : CommitSt) (pid : Nat) :
    CommitSt :=
  if pid ∈ dying then st
  else
    match lookupPlayer st.players pid with
    | none => st
    | some p =>
      let it := intents pid
      let nh := it.next_head
      let body1 := nh :: p.body
      let bset1 := insert nh p.body_set
      let occ1 := insert nh st.occ
      let popTail := body1.getLastD (0, 0)
      if it.will_grow then
        { players := updatePlayer st.players pid (fun q =>
            { q with body := body1, body_set := bset1, score := q.score + 1 }),
          occ := occ1, food := st.food.erase nh,
          moves := st.moves ++ [MoveMsg.move pid nh none (p.score + 1)],
          eaten := true }
      else if popTail ≠ nh then
        { players := updatePlayer st.players pid (fun q =>
            { q with body := body1.dropLast, body_set := bset1.erase popTail }),
          occ := occ1.erase popTail, food := st.food,
          moves := st.moves ++ [MoveMsg.move pid nh (some popTail) p.score],
          eaten := st.eaten }
      else
        { players := updatePlayer st.players pid (fun q =>
            { q with body := body1.dropLast, body_set := bset1, score := q.score + 1 }),
          occ := occ1, food := st.food.erase nh,
          moves := st.moves ++ [MoveMsg.move pid nh none (p.score + 1)],
          eaten := true }

/-- Phase 4 cleanup for one dying id: mark dead and eliminated, halve the
score, append to `death_order`, free the body cells; when the dead player
is human and no human remains alive while a non-dying bot does and a
benched bot exists, revive the first benched bot at a fresh spawn. -/
def cleanupOne (dyingAll : List Nat) (reasons : List (Nat × String))
    (st : CleanupSt) (pid : Nat) : CleanupSt :=
  match lookupPlayer st.players pid with
  | none => st
  | some p =>
    let ps1 := updatePlayer st.players pid (fun q =>
      { q with alive := false, eliminated := true, score := q.score / 2,
               body := [], body_set := ∅ })
    let occ1 := p.body.foldl (fun o c => o.erase c) st.occ
    let dord1 := st.dord ++ [pid]
    let moves1 := st.moves ++ [MoveMsg.dead pid (getReason reasons pid)]
    if p.is_bot then
      { players := ps1, occ := occ1, dord := dord1, moves := moves1, draws := st.draws }
    else
      let aliveHumans := ps1.countP (fun q => !q.is_bot && q.alive)
      let aliveBotsAfter :=
        ps1.countP (fun q => q.is_bot && q.alive && !(dyingAll.contains q.player_id))
      let benched := ps1.filter (fun q => isBenchedBot q)
      if aliveHumans = 0 ∧ aliveBotsAfter > 0 ∧ benched ≠ [] then
        match benched.head? with
        | none =>
            { players := ps1, occ := occ1, dord := dord1, moves := moves1,
              draws := st.draws }
        | some bot =>
          let ps2 := updatePlayer ps1 bot.player_id
            (fun q => { q with alive := true, connected := true })
          let res := trySpawn ps2 100 st.draws
          match res.1 with
          | some c =>
              let b := placeBody c
              let ps3 := updatePlayer ps2 bot.player_id (fun q =>
                { q with body := b, body_set := b.toFinset, direction := (1, 0) })
              { players := ps3, occ := occ1 ∪ b.toFinset, dord := dord1,
                moves := moves1 ++ [MoveMsg.revived bot.player_id b bot.score],
                draws := res.2 }
          | none =>
              { players := ps2, occ := occ1, dord := dord1, moves := moves1,
                draws := res.2 }
      else
        { players := ps1, occ := occ1, dord := dord1, moves := moves1, draws := st.draws }

/-- `alive_players` of the tick. -/
def aliveOf (r2 : Room) : List PlayerState :=
  r2.players.filter (·.alive)

/-- The Phase 1 intent table of the tick. -/
def intentsR (r2 : Room) : Nat → Intent :=
  intentsOf r2.food (aliveOf r2)

/-- `tails_to_free`: the cells vacated this tick (truthiness of a cell
tuple is always true, so every recorded `tail_to_free` is collected). -/
def tailsR (r2 : Room) : Finset Cell :=
  ((aliveOf r2).filterMap (fun p => (intentsR r2 p.player_id).tail_to_free)).toFinset

/-- The Phase 2 result: the dying ids and the death reasons. -/
def dyingR (r2 : Room) : List Nat × List (Nat × String) :=
  computeDying r2 (aliveOf r2) (intentsR r2) (tailsR r2)

/-- The Phase 3 commit loop over the alive players in map order. -/
def phase3 (r2 : Room) : CommitSt :=
  ((aliveOf r2).map (·.player_id)).foldl (commitOne (dyingR r2).1 (intentsR r2))
    { players := r2.players, occ := r2.occupied_set, food := r2.food,
      moves := [], eaten := false }

/-- The Phase 4 cleanup loop over the dying ids. -/
def phase4 (r2 : Room) (spawnDraws : List Cell) : CleanupSt :=
  (dyingR r2).1.foldl (cleanupOne (dyingR r2).1 (dyingR r2).2)
    { players := (phase3 r2).players, occ := (phase3 r2).occ, dord := r2.death_order,
      moves := (phase3 r2).moves, draws := spawnDraws }

/-- Phases 1-4 plus food replenishment, on a room that passed the
lifecycle guards (bot directions already applied). -/
def stepPhases (r2 : Room) (spawnDraws foodDraws : List Cell) : Room × List MoveMsg :=
  let st4 := phase4 r2 spawnDraws
  let food4 := if (phase3 r2).eaten then spawnFood st4.occ (phase3 r2).food foodDraws
    else (phase3 r2).food
  ({ r2 with players := st4.players, occupied_set := st4.occ, food := food4,
             death_order := st4.dord, pending_deaths := [] }, st4.moves)

/-- The AI-showdown handoff guard: no alive humans, exactly one alive
bot, and a benched bot waiting. -/
def keepForAiShowdown (ps : List PlayerState) : Prop :=
  ps.countP (fun p => !p.is_bot && p.alive) = 0 ∧
  ps.countP (fun p => p.is_bot && p.alive) = 1 ∧
  ps.countP (fun p => isBenchedBot p) > 0

instance (ps : List PlayerState) : Decidable (keepForAiShowdown ps) := by
  unfold keepForAiShowdown; infer_instance

/-- The room as the phases see it: tick advanced and bot directions
applied.  `step` on a RUNNING room with alive players that does not end
the round computes `stepPhases (preRoom bd r)`. -/
def preRoom (bd : BotOracle) (r : Room) : Room :=
  { r with tick_id := r.tick_id + 1, players := botPhase bd r.players }

/-- `Room.step`: a no-op unless RUNNING; advance the tick counter, end the
round when nobody is alive, run the bot policy, end the round when at
most one player is alive in a room of at least two total players unless
the AI-showdown handoff applies, otherwise run the four phases. -/
def step (bd : BotOracle) (spawnDraws foodDraws : List Cell) (r : Room) :
    Room × List MoveMsg :=
  if r.status ≠ "RUNNING" then (r, [])
  else
    let r1 := { r with tick_id := r.tick_id + 1 }
    let aliveL := r1.players.filter (·.alive)
    if aliveL.isEmpty then (endGame r1, [])
    else
      let r2 := { r1 with players := botPhase bd r1.players }
      if aliveL.length ≤ 1 ∧ r2.players.length ≥ 2 ∧ ¬ keepForAiShowdown r2.players then
        (endGame r2, [])
      else stepPhases r2 spawnDraws foodDraws

/-! ## The JOIN path of the connection handler (`SnakeServer.handler`) -/

/-- The one-shot snapshot a spectator receives when joining a RUNNING room. -/
structure Snapshot where
  snakes : List (Nat × String × List Cell × Nat)
  food : List Cell
deriving DecidableEq

/-- The `join_ok` / `err` reply of the JOIN branch. -/
structure JoinReply where
  ok : Bool
  errCode : Option String
  roomStatus : String
  playersList : List (Nat × String)
  yourId : Nat
  snapshot : Option Snapshot
deriving DecidableEq

/-- The JOIN branch of the handler: construct a fresh human player (name
capped at 10 characters), call `add_player`, and on success reply with
the counted player list, plus the alive-snakes-and-food snapshot iff the
room is RUNNING; on rejection reply with the error code, room untouched. -/
def handleJoin (r : Room) (pid : Nat) (name : String) : Room × JoinReply :=
  let pl := PlayerState.new pid (name.take 10)
  let res := addPlayer r pl
  let r1 := res.1
  if res.2.1 then
    let snap : Option Snapshot :=
      if r1.status = "RUNNING" then
        some { snakes := (r1.players.filter (·.alive)).map
                 (fun p => (p.player_id, p.username, p.body, p.score)),
               food := r1.food }
      else none
    (r1, { ok := true, errCode := none, roomStatus := r1.status,
           playersList := r1.countedPlayers.map (fun p => (p.player_id, p.username)),
           yourId := pid, snapshot := snap })
  else
    (r1, { ok := false, errCode := res.2.2, roomStatus := r1.status,
           playersList := [], yourId := pid, snapshot := none })

/-! ## The auto-start pass of the game loop (`SnakeServer.game_loop`)

One WAITING-room iteration of the loop body: with at least one human in
the player map, start immediately at capacity, else with counted count
≥ 2 arm a 5-second countdown or start when it has elapsed; with no
humans, clear the countdown.  Time is an explicit `now` parameter. -/

/-- One auto-start pass over a room. -/
def autoStartTick (r : Room) (now : Nat) (spawnDraws foodDraws : List Cell) : Room :=
  if r.status = "WAITING" then
    if r.players.countP (fun p => !p.is_bot) > 0 then
      if r.countedPlayerCount ≥ r.capacity then startGame r spawnDraws foodDraws
      else if r.countedPlayerCount ≥ 2 then
        match r.countdown_deadline with
        | none => { r with countdown_deadline := some (now + 5) }
        | some t => if t ≤ now then startGame r spawnDraws foodDraws else r
      else r
    else { r with countdown_deadline := none }
  else r

/-! ## Concrete rooms used as test vectors -/

/-- The trivial bot oracle: every bot keeps its direction (the policy's
straight move). -/
def noBots : BotOracle := fun _ => none

/-- A snake forming a 2×2 loop about to follow its own tail: head (1,1),
direction up, so `next_head = (1,0)` is exactly its current tail. -/
def tailChaseSnake : PlayerState :=
  { PlayerState.new 1 "s" with
    body := [(1, 1), (0, 1), (0, 0), (1, 0)]
    body_set := {(1, 1), (0, 1), (0, 0), (1, 0)}
    direction := (0, -1) }

/-- A RUNNING room holding only `tailChaseSnake` and no food. -/
def tailChaseRoom : Room :=
  { Room.new with
    status := "RUNNING"
    players := [tailChaseSnake]
    occupied_set := {(1, 1), (0, 1), (0, 0), (1, 0)} }

/-- A RUNNING room with one alive human and one benched bot: total player
count 2, counted player count 1. -/
def c4Room : Room :=
  { Room.new with
    status := "RUNNING"
    players := [{ PlayerState.new 1 "h" with body := [(5, 5)], body_set := {(5, 5)} },
                { PlayerState.newBot 9 "AI" with alive := false, connected := false }]
    host_id := some 1
    occupied_set := {(5, 5)} }

/-- A RUNNING room with one connected human player, about to end its round. -/
def c5Room : Room :=
  { Room.new with
    status := "RUNNING"
    players := [{ PlayerState.new 2 "h" with score := 5 }]
    host_id := some 2 }

/-- A WAITING room holding only the two alive bots every room is created
with: counted player count 2, no humans. -/
def c9Room : Room :=
  { Room.new with
    status := "WAITING"
    players := [PlayerState.newBot 100 "AI", PlayerState.newBot 101 "AI2"]
    host_id := some 100 }

/-- A WAITING room with one human and one alive bot: counted count 2. -/
def c9ArmRoom : Room :=
  { Room.new with
    status := "WAITING"
    players := [PlayerState.new 1 "h", PlayerState.newBot 100 "AI"]
    host_id := some 1 }

/-- Invariant (I2)/(P3) of the spec: no food cell is occupied. -/
def foodDisjoint (r : Room) : Prop :=
  ∀ c ∈ r.food, c ∉ r.occupied_set

instance (r : Room) : Decidable (foodDisjoint r) := by
  unfold foodDisjoint; infer_instance

/-- No benched bot is present (rules out the mid-tick revival path). -/
def noBenchedBots (ps : List PlayerState) : Prop :=
  ∀ p ∈ ps, isBenchedBot p = false

instance (ps : List PlayerState) : Decidable (noBenchedBots ps) := by
  unfold noBenchedBots; infer_instance

/-- A human about to hit the right wall (head at x = 49 moving right). -/
def c2Human : PlayerState :=
  { PlayerState.new 1 "h" with
    body := [(49, 5), (48, 5), (47, 5)]
    body_set := {(49, 5), (48, 5), (47, 5)} }

/-- An alive bot far from everything, moving right. -/
def c2BotA : PlayerState :=
  { PlayerState.newBot 2 "AI" with
    body := [(5, 5), (4, 5), (3, 5)]
    body_set := {(5, 5), (4, 5), (3, 5)} }

/-- A benched bot (alive=false, eliminated=false, disconnected). -/
def c2BotB : PlayerState :=
  { PlayerState.newBot 3 "AI2" with alive := false, connected := false }

/-- A RUNNING room where the last human dies this tick while a bot
survives and a benched bot waits: the revival path fires, and the spawn
oracle puts the revived body exactly on the food cell (20,20). -/
def c2Room : Room :=
  { Room.new with
    status := "RUNNING"
    players := [c2Human, c2BotA, c2BotB]
    host_id := some 1
    food := [(20, 20)]
    occupied_set := {(49, 5), (48, 5), (47, 5), (5, 5), (4, 5), (3, 5)} }

/-- Snake heading right into cell (3,2). -/
def c3A : PlayerState :=
  { PlayerState.new 1 "a" with
    body := [(2, 2), (1, 2)]
    body_set := {(2, 2), (1, 2)} }

/-- Snake heading left into the same cell (3,2). -/
def c3B : PlayerState :=
  { PlayerState.new 2 "b" with
    body := [(4, 2), (5, 2)]
    body_set := {(4, 2), (5, 2)}
    direction := (-1, 0) }

/-- A third snake whose standing body covers the contested cell (3,2)
and which moves away (down) and survives. -/
def c3D : PlayerState :=
  { PlayerState.new 4 "d" with
    body := [(3, 3), (3, 2), (3, 1)]
    body_set := {(3, 3), (3, 2), (3, 1)}
    direction := (0, 1) }

/-- A RUNNING room where two snakes contest a cell standing inside a
surviving third snake's body. -/
def c3Room : Room :=
  { Room.new with
    status := "RUNNING"
    players := [c3A, c3B, c3D]
    host_id := some 1
    occupied_set := {(2, 2), (1, 2), (4, 2), (5, 2), (3, 3), (3, 2), (3, 1)} }

/-- A RUNNING room with exactly the two head-on snakes, contested cell
(3,2) free. -/
def c3WRoom : Room :=
  { Room.new with
    status := "RUNNING"
    players := [c3A, c3B]
    host_id := some 1
    occupied_set := {(2, 2), (1, 2), (4, 2), (5, 2)} }

/-! ## Reachability of room states (`SnakeServer`)

The server constructs each room once (`Room(rid)` plus the two auto-added
bots) and afterwards mutates it only through `add_player` (the JOIN
branch), `remove_player` (a human connection closing), the input branch,
the host's `start_request`, the auto-start pass and the `step` tick.
`Reachable` closes the initial room under exactly these operations. -/

/-- The initial room: `Room(rid)` followed by the two auto-added bots. -/
def initRoom : Room :=
  (addPlayer (addPlayer Room.new (PlayerState.newBot 100 "AI")).1
    (PlayerState.newBot 101 "AI2")).1

/-- `n` successive game-loop ticks, bots keeping straight, no spawn or
food draws. -/
def stepN : Nat → Room → Room
  | 0, r => r
  | n + 1, r => stepN n (step noBots [] [] r).1

/-- The room states the server can produce: the initial bot-seeded room,
closed under the JOIN branch, a human's disconnect, an input message, the
host's manual start (a connected human holding `host_id`, room WAITING),
an auto-start pass, and a game-loop tick. -/
inductive Reachable : Room → Prop where
  | init : Reachable initRoom
  | join (r : Room) (pid : Nat) (name : String) :
      Reachable r → Reachable (handleJoin r pid name).1
  | leave (r : Room) (pid : Nat) :
      Reachable r →
      (∀ p ∈ r.players, p.player_id = pid → p.is_bot = false) →
      Reachable (removePlayer r pid)
  | input (r : Room) (pid : Nat) (d : String) :
      Reachable r →
      Reachable { r with players := updatePlayer r.players pid (fun p => handleInput p d) }
  | manualStart (r : Room) (pid : Nat) (p : PlayerState) (sd fd : List Cell) :
      Reachable r → lookupPlayer r.players pid = some p →
      p.is_bot = false → p.connected = true →
      r.host_id = some pid → r.status = "WAITING" →
      Reachable (startGame r sd fd)
  | autoTick (r : Room) (now : Nat) (sd fd : List Cell) :
      Reachable r → Reachable (autoStartTick r now sd fd)
  | stepTick (r : Room) (bd : BotOracle) (sd fd : List Cell) :
      Reachable r → Reachable (step bd sd fd r).1

/-- Spawn draws for the doomed round: the surviving bot and both humans
spawn at x = 40 (rows 10, 20, 30) and march right into the wall
together. -/
def c6sd : List Cell := [(40, 10), (40, 20), (40, 30)]

/-- Two humans join the fresh room. -/
def c6r2 : Room := (handleJoin (handleJoin initRoom 1 "h1").1 2 "h2").1

/-- The auto-start pass arms the countdown... -/
def c6r3 : Room := autoStartTick c6r2 0 [] []

/-- ...and starts the game when it elapses, spawning along `c6sd`. -/
def c6r4 : Room := autoStartTick c6r3 5 c6sd []

/-- Nine marching ticks, the simultaneous wall deaths, and the
round-ending tick. -/
def c6r15 : Room := stepN 11 c6r4

/-- Both humans disconnect while the room is IDLE: they stay in the map,
marked disconnected. -/
def c6r17 : Room := removePlayer (removePlayer c6r15 1) 2

/-- A third human joins (IDLE → WAITING) and disconnects again (deleted,
the stale pair remains). -/
def c6r19 : Room := removePlayer (handleJoin c6r17 3 "h3").1 3

/-- The stale humans still count for the auto-start pass, which arms and
then starts a round with zero connected humans: both bots are benched
(disconnected) and the stale humans pruned. -/
def c6r21 : Room := autoStartTick (autoStartTick c6r19 100 [] []) 105 [] []

/-- The next tick finds nobody alive and ends the round: `end_game`
re-elects the host among connected players — there are none. -/
def c6rBad : Room := (step noBots [] [] c6r21).1

/-- A WAITING room whose host leaves while the only other player is
disconnected. -/
def c6wRoom : Room :=
  { Room.new with
    status := "WAITING"
    host_id := some 1
    players := [PlayerState.new 1 "a",
                { PlayerState.new 2 "b" with connected := false }] }

/-! # Theorems -/

/-- The input branch never changes the alive flag. -/
theorem handleInput_alive (p : PlayerState) (d : String) :
    (handleInput p d).alive = p.alive := by
  unfold handleInput
  split_ifs with h
  · rfl
  · dsimp only
    split <;> rfl

/-- A direction name accepted by `inputVec` is one of the four names. -/
theorem inputVec_cases (d : String) (v : Int × Int) (hv : inputVec d = some v) :
    d = "up" ∨ d = "down" ∨ d = "left" ∨ d = "right" := by
  unfold inputVec at hv; split_ifs at hv <;> simp_all

/-- An input whose vector is the 180° reverse of the current direction is
rejected: the player is returned unchanged. -/
theorem handleInput_reverse_noop (p : PlayerState) (d : String) (v : Int × Int)
    (ha : p.alive = true) (hv : inputVec d = some v)
    (hrev : p.direction = (-v.1, -v.2)) : handleInput p d = p := by
  rcases inputVec_cases d v hv with h | h | h | h <;> subst h <;>
    (unfold inputVec at hv; simp at hv; subst hv; simp at hrev) <;>
    simp [handleInput, ha, hrev]

/-- An input whose vector is not the 180° reverse of the current
direction overwrites the direction with the requested vector. -/
theorem handleInput_accept (p : PlayerState) (d : String) (v : Int × Int)
    (ha : p.alive = true) (hv : inputVec d = some v)
    (hrev : p.direction ≠ (-v.1, -v.2)) : (handleInput p d).direction = v := by
  rcases inputVec_cases d v hv with h | h | h | h <;> subst h <;>
    (unfold inputVec at hv; simp at hv; subst hv; simp at hrev) <;>
    simp [handleInput, ha, hrev]

/-- C8: an INPUT naming the 180° reverse of the player's current
direction leaves the direction unchanged (the whole player is returned
untouched); an input that is not the reverse overwrites the direction,
so of several inputs between two ticks the latest accepted one wins; and
inputs from players with `alive = false` are ignored entirely. -/
theorem C8_input_direction_rules (p : PlayerState) (d1 d2 : String) (v1 v2 : Int × Int) :
    (p.alive = false → handleInput p d1 = p) ∧
    (p.alive = true → inputVec d1 = some v1 → p.direction = (-v1.1, -v1.2) →
      handleInput p d1 = p) ∧
    (p.alive = true → inputVec d1 = some v1 → p.direction ≠ (-v1.1, -v1.2) →
      (handleInput p d1).direction = v1) ∧
    (p.alive = true → inputVec d2 = some v2 →
      (handleInput p d1).direction ≠ (-v2.1, -v2.2) →
      (handleInput (handleInput p d1) d2).direction = v2) := by
  refine ⟨fun h => ?_, handleInput_reverse_noop p d1 v1,
    handleInput_accept p d1 v1, fun ha hv hrev => ?_⟩
  · unfold handleInput; simp [h]
  · exact handleInput_accept (handleInput p d1) d2 v2
      (by rw [handleInput_alive]; exact ha) hv hrev

/-- Witness for C8 at concrete inputs: a player moving right ignores
`d=left`, and a dead player ignores everything. -/
theorem C8_input_direction_rules_witness :
    handleInput (PlayerState.new 1 "w") "left" = PlayerState.new 1 "w" ∧
    (handleInput (handleInput (PlayerState.new 1 "w") "up") "left").direction = (-1, 0) := by
  constructor
  · exact (C8_input_direction_rules (PlayerState.new 1 "w") "left" "up"
      (-1, 0) (0, -1)).2.1 rfl rfl (by decide)
  · exact (C8_input_direction_rules (PlayerState.new 1 "w") "up" "left"
      (0, -1) (-1, 0)).2.2.2 rfl rfl (by decide)

/-- C1: evaluation of the tick at the tail-chase test vector.  The snake
whose next head is its own tail survives with its body shifted by one,
but the committed move takes the no-popped-tail branch, so the code
increments its score to 1 and reports it in the delta even though
`will_grow` is false and no food exists; the claim (score unchanged when
¬will_grow, including the tail chase) is violated by this branch. -/
theorem C1_tail_chase_gains_score :
    tailChaseRoom.food = [] ∧
    (lookupPlayer tailChaseRoom.players 1).map (fun p => p.score) = some 0 ∧
    nextHeadOf tailChaseSnake = (1, 0) ∧
    tailChaseSnake.body.getLast? = some (1, 0) ∧
    (lookupPlayer (step noBots [] [] tailChaseRoom).1.players 1).map
        (fun p => (p.alive, p.score, p.body)) =
      some (true, 1, [(1, 0), (1, 1), (0, 1), (0, 0)]) ∧
    (step noBots [] [] tailChaseRoom).2 = [MoveMsg.move 1 (1, 0) none 1] := by
  decide

/-- `get_move` only rewrites the direction: all the flags and the id of a
player survive the bot pass unchanged. -/
theorem botMoveOne_flags (bd : BotOracle) (p : PlayerState) :
    (botMoveOne bd p).is_bot = p.is_bot ∧ (botMoveOne bd p).alive = p.alive ∧
    (botMoveOne bd p).eliminated = p.eliminated ∧
    (botMoveOne bd p).player_id = p.player_id := by
  unfold botMoveOne
  split
  · split <;> exact ⟨rfl, rfl, rfl, rfl⟩
  · exact ⟨rfl, rfl, rfl, rfl⟩

/-- A count over a predicate the bot pass cannot change is unchanged. -/
theorem countP_botPhase (bd : BotOracle) (ps : List PlayerState) (f : PlayerState → Bool)
    (hf : ∀ p, f (botMoveOne bd p) = f p) :
    (botPhase bd ps).countP f = ps.countP f := by
  unfold botPhase
  rw [List.countP_map]
  exact List.countP_congr (fun a _ => by simp [Function.comp, hf])

/-- The length of the player list is unchanged by the bot pass. -/
theorem botPhase_length (bd : BotOracle) (ps : List PlayerState) :
    (botPhase bd ps).length = ps.length := by
  unfold botPhase
  exact List.length_map _ _

/-- The AI-showdown guard is insensitive to the bot pass. -/
theorem keepForAiShowdown_botPhase (bd : BotOracle) (ps : List PlayerState) :
    keepForAiShowdown (botPhase bd ps) ↔ keepForAiShowdown ps := by
  unfold keepForAiShowdown
  rw [countP_botPhase bd ps (fun p => !p.is_bot && p.alive)
        (fun p => by simp [(botMoveOne_flags bd p).1, (botMoveOne_flags bd p).2.1]),
      countP_botPhase bd ps (fun p => p.is_bot && p.alive)
        (fun p => by simp [(botMoveOne_flags bd p).1, (botMoveOne_flags bd p).2.1]),
      countP_botPhase bd ps (fun p => isBenchedBot p)
        (fun p => by simp [isBenchedBot, (botMoveOne_flags bd p).1,
          (botMoveOne_flags bd p).2.1, (botMoveOne_flags bd p).2.2.1])]

/-- `end_game` always leaves the room IDLE. -/
theorem endGame_status (r : Room) : (endGame r).status = "IDLE" := rfl

/-- The four phases never change the lifecycle status. -/
theorem stepPhases_status (r2 : Room) (sd fd : List Cell) :
    (stepPhases r2 sd fd).1.status = r2.status := rfl

/-- C4 (amended): with the room RUNNING, the tick ends the round (the
status drops to IDLE via `end_game`) exactly when no player is alive, or
when at most one player is alive while the TOTAL player count — benched
bots included — is at least 2, unless the AI-showdown handoff is active.
The source compares `len(self.players)`, not the counted player count
the claim names. -/
theorem C4_round_end_condition (r : Room) (bd : BotOracle) (sd fd : List Cell)
    (hrun : r.status = "RUNNING") :
    ((step bd sd fd r).1.status = "IDLE" ↔
      ((r.players.filter (·.alive)).length = 0 ∨
       ((r.players.filter (·.alive)).length ≤ 1 ∧ r.players.length ≥ 2 ∧
        ¬ keepForAiShowdown r.players))) := by
  unfold step
  rw [if_neg (by simp [hrun])]
  by_cases h0 : (r.players.filter (·.alive)).isEmpty
  · rw [if_pos h0]
    simp [endGame_status, List.isEmpty_iff.mp h0]
  · rw [if_neg h0]
    by_cases hc : (({ r with tick_id := r.tick_id + 1 } : Room).players.filter
          (·.alive)).length ≤ 1 ∧
        (botPhase bd ({ r with tick_id := r.tick_id + 1 } : Room).players).length ≥ 2 ∧
        ¬ keepForAiShowdown
            (botPhase bd ({ r with tick_id := r.tick_id + 1 } : Room).players)
    · rw [if_pos hc]
      obtain ⟨hc1, hc2, hc3⟩ := hc
      rw [botPhase_length] at hc2
      rw [keepForAiShowdown_botPhase] at hc3
      simp only [endGame_status, true_iff]
      exact Or.inr ⟨hc1, hc2, hc3⟩
    · rw [if_neg hc]
      rw [stepPhases_status]
      constructor
      · intro h
        exact absurd h (by simp [hrun])
      · intro h
        exfalso
        rcases h with h | ⟨h1, h2, h3⟩
        · exact h0 (by simp [List.isEmpty_iff, List.length_eq_zero.mp h])
        · exact hc ⟨h1, by rw [botPhase_length]; exact h2,
            by rw [keepForAiShowdown_botPhase]; exact h3⟩

/-- Witness for C4: a two-snake room (both alive) is not ended by the
tick, and the same room with one snake dead and one alive is. -/
theorem C4_round_end_condition_witness :
    (step noBots [] [] c4Room).1.status = "IDLE" ∧
    ((c4Room.players.filter (·.alive)).length = 0 ∨
      ((c4Room.players.filter (·.alive)).length ≤ 1 ∧ c4Room.players.length ≥ 2 ∧
       ¬ keepForAiShowdown c4Room.players)) :=
  ⟨(C4_round_end_condition c4Room noBots [] [] rfl).mpr
      (Or.inr ⟨by decide, by decide, by decide⟩),
   (C4_round_end_condition c4Room noBots [] [] rfl).mp
      ((C4_round_end_condition c4Room noBots [] [] rfl).mpr
        (Or.inr ⟨by decide, by decide, by decide⟩))⟩

/-- Counterexample for C4 as stated: in `c4Room` the counted player count
is 1 (the benched bot is excluded), one player is alive, the showdown
guard is off — by the claim the round must NOT end — yet the tick ends it,
because the source compares the total `len(self.players) = 2`. -/
theorem C4_counterexample_counted_vs_total :
    c4Room.status = "RUNNING" ∧
    c4Room.countedPlayerCount = 1 ∧
    ¬ c4Room.countedPlayerCount ≥ 2 ∧
    (c4Room.players.filter (·.alive)).length = 1 ∧
    ¬ keepForAiShowdown c4Room.players ∧
    (step noBots [] [] c4Room).1.status = "IDLE" := by
  decide

/-- The host after `end_game` is `none` exactly when nobody is connected. -/
theorem head_filter_connected_none_iff (l : List PlayerState) :
    ((l.filter (fun p => p.connected)).head?.map (fun p => p.player_id) = none) ↔
      ∀ p ∈ l, p.connected = false := by
  induction l with
  | nil => simp
  | cons a t ih =>
      by_cases h : a.connected
      · simp [List.filter_cons, h]
      · simp [List.filter_cons, h, ih]

/-- A `some` host after `end_game` names a connected present player. -/
theorem head_filter_connected_some (l : List PlayerState) (h : Nat)
    (hh : (l.filter (fun p => p.connected)).head?.map (fun p => p.player_id) = some h) :
    ∃ p ∈ l, p.player_id = h ∧ p.connected = true := by
  induction l with
  | nil => simp at hh
  | cons a t ih =>
      by_cases hc : a.connected
      · simp [List.filter_cons, hc] at hh
        exact ⟨a, List.mem_cons_self a t, hh, hc⟩
      · simp only [List.filter_cons, hc, Bool.false_eq_true, if_false] at hh
        obtain ⟨p, hp, hh⟩ := ih hh
        exact ⟨p, List.mem_cons_of_mem a hp, hh⟩

/-- C5 (amended): `end_game` broadcasts the ranking and then always
transitions to IDLE — also when players remain (the source assigns IDLE
in both branches, never WAITING) — resets every score to 0, clears
`countdown_deadline`, and re-elects the host as the first connected
player, null if none is connected; ids and connection flags are kept. -/
theorem C5_end_game_round_reset (r : Room) :
    (endGame r).status = "IDLE" ∧
    (∀ p ∈ (endGame r).players, p.score = 0) ∧
    (endGame r).countdown_deadline = none ∧
    ((endGame r).players.map (fun p => (p.player_id, p.connected)) =
      r.players.map (fun p => (p.player_id, p.connected))) ∧
    ((endGame r).host_id = none ↔ ∀ p ∈ (endGame r).players, p.connected = false) ∧
    (∀ h, (endGame r).host_id = some h →
      ∃ p ∈ (endGame r).players, p.player_id = h ∧ p.connected = true) := by
  refine ⟨rfl, ?_, rfl, ?_, ?_, ?_⟩
  · intro p hp
    unfold endGame at hp
    simp only [List.mem_map] at hp
    obtain ⟨q, _, rfl⟩ := hp
    rfl
  · unfold endGame
    rw [List.map_map]
    rfl
  · exact head_filter_connected_none_iff _
  · intro h hh
    exact head_filter_connected_some _ h hh

/-- Witness for C5 at `c5Room`: the room goes IDLE and the host is
re-elected as the (connected) remaining player 2. -/
theorem C5_end_game_round_reset_witness :
    (endGame c5Room).status = "IDLE" ∧
    (∃ p ∈ (endGame c5Room).players, p.player_id = 2 ∧ p.connected = true) :=
  ⟨(C5_end_game_round_reset c5Room).1,
   (C5_end_game_round_reset c5Room).2.2.2.2.2 2 (by decide)⟩

/-- Counterexample for C5 as stated: `c5Room` still holds a connected
player, yet after `end_game` the room is IDLE, not WAITING. -/
theorem C5_counterexample_idle_despite_players :
    c5Room.players ≠ [] ∧
    (endGame c5Room).players ≠ [] ∧
    (∃ p ∈ (endGame c5Room).players, p.connected = true) ∧
    (endGame c5Room).status = "IDLE" ∧
    (endGame c5Room).status ≠ "WAITING" := by
  refine ⟨by decide, by decide, ⟨(endGame c5Room).players.head (by decide), by decide⟩,
    rfl, by decide⟩

/-- `start_game` always leaves the room RUNNING. -/
theorem startGame_status (r : Room) (sd fd : List Cell) :
    (startGame r sd fd).status = "RUNNING" := rfl

/-- C9 (amended): in a WAITING room the auto-start logic runs only when
at least one human is in the player map: then the game starts at once at
capacity; with counted count in [2, capacity) a 5-second countdown is
armed if none is, and the game starts when it has elapsed.  With no
humans the countdown is cleared; with humans but counted count < 2 the
pass leaves the room (and any armed countdown) untouched — the countdown
is NOT disarmed by the count dropping below 2, only by the humans
leaving the map. -/
theorem C9_auto_start_rules (r : Room) (now : Nat) (sd fd : List Cell)
    (hw : r.status = "WAITING") :
    (r.players.countP (fun p => !p.is_bot) = 0 →
      (autoStartTick r now sd fd).countdown_deadline = none) ∧
    (r.players.countP (fun p => !p.is_bot) > 0 →
      r.countedPlayerCount ≥ r.capacity →
      (autoStartTick r now sd fd).status = "RUNNING") ∧
    (r.players.countP (fun p => !p.is_bot) > 0 →
      r.countedPlayerCount < r.capacity → 2 ≤ r.countedPlayerCount →
      r.countdown_deadline = none →
      (autoStartTick r now sd fd).countdown_deadline = some (now + 5) ∧
      (autoStartTick r now sd fd).status = "WAITING") ∧
    (∀ t, r.players.countP (fun p => !p.is_bot) > 0 →
      r.countedPlayerCount < r.capacity → 2 ≤ r.countedPlayerCount →
      r.countdown_deadline = some t → t ≤ now →
      (autoStartTick r now sd fd).status = "RUNNING") ∧
    (r.players.countP (fun p => !p.is_bot) > 0 → 2 ≤ r.capacity →
      r.countedPlayerCount < 2 → autoStartTick r now sd fd = r) := by
  unfold autoStartTick
  rw [if_pos hw]
  refine ⟨?_, ?_, ?_, ?_, ?_⟩
  · intro h0
    rw [if_neg (by omega)]
  · intro hh hcap
    rw [if_pos hh, if_pos hcap, startGame_status]
  · intro hh hcap h2 hnone
    rw [if_pos hh, if_neg (by omega), if_pos h2, hnone]
    exact ⟨rfl, hw⟩
  · intro t hh hcap h2 hsome ht
    rw [if_pos hh, if_neg (by omega), if_pos h2, hsome]
    dsimp only
    rw [if_pos ht, startGame_status]
  · intro hh hcap2 hlt
    rw [if_pos hh, if_neg (by omega), if_neg (by omega)]

/-- Witness for C9: a human-plus-bot room with counted count 2 arms the
5-second countdown at time 0. -/
theorem C9_auto_start_rules_witness :
    (autoStartTick c9ArmRoom 0 [] []).countdown_deadline = some 5 ∧
    (autoStartTick c9ArmRoom 0 [] []).status = "WAITING" :=
  (C9_auto_start_rules c9ArmRoom 0 [] [] rfl).2.2.1 (by decide) (by decide)
    (by decide) rfl

/-- Counterexample for C9 as stated: a WAITING room with its two alive
bots has counted player count 2, yet the pass leaves the countdown
unarmed (and does not start), because the source guards the whole
auto-start block on `human_count > 0`. -/
theorem C9_counterexample_bots_only_never_armed :
    c9Room.status = "WAITING" ∧
    c9Room.countedPlayerCount = 2 ∧
    c9Room.countdown_deadline = none ∧
    (autoStartTick c9Room 7 [] []).countdown_deadline = none ∧
    (autoStartTick c9Room 7 [] []).status = "WAITING" := by
  decide

/-- `find?` commutes with an id-preserving rewrite of the entries. -/
theorem lookupPlayer_map (ps : List PlayerState) (f : PlayerState → PlayerState) (pid : Nat)
    (hf : ∀ p, (f p).player_id = p.player_id) :
    lookupPlayer (ps.map f) pid = (lookupPlayer ps pid).map f := by
  induction ps with
  | nil => rfl
  | cons a t ih =>
      unfold lookupPlayer at ih ⊢
      by_cases h : a.player_id = pid
      · rw [List.map_cons, List.find?_cons_of_pos _ (by simp [hf, h]),
          List.find?_cons_of_pos _ (by simp [h])]
        rfl
      · rw [List.map_cons, List.find?_cons_of_neg _ (by simp [hf, h]),
          List.find?_cons_of_neg _ (by simp [h]), ih]

/-- Writing a player into the map makes it the entry found at its id. -/
theorem lookupPlayer_upsert (ps : List PlayerState) (pl : PlayerState) :
    lookupPlayer (upsertPlayer ps pl) pl.player_id = some pl := by
  unfold upsertPlayer
  split_ifs with h
  · induction ps with
    | nil => simp at h
    | cons a t ih =>
        by_cases ha : a.player_id = pl.player_id
        · unfold lookupPlayer
          rw [List.map_cons, if_pos (by simp [ha]),
            List.find?_cons_of_pos _ (by simp)]
        · have h2 : t.any (fun p => p.player_id == pl.player_id) = true := by
            simp only [List.any_cons, Bool.or_eq_true] at h
            rcases h with h | h
            · exact absurd (by simpa using h) ha
            · exact h
          unfold lookupPlayer at ih ⊢
          rw [List.map_cons, if_neg (by simp [ha]),
            List.find?_cons_of_neg _ (by simp [ha])]
          exact ih h2
  · induction ps with
    | nil => unfold lookupPlayer; simp
    | cons a t ih =>
        simp only [List.any_cons, Bool.or_eq_true, beq_iff_eq] at h
        push_neg at h
        unfold lookupPlayer at ih ⊢
        rw [List.cons_append, List.find?_cons_of_neg _ (by simp [h.1])]
        exact ih h.2

/-- Benching bots does not disturb the entry of a human player. -/
theorem lookupPlayer_benchBots_human (ps : List PlayerState) (pid : Nat) (p : PlayerState)
    (hp : lookupPlayer ps pid = some p) (hhum : p.is_bot = false) :
    lookupPlayer (benchBots ps) pid = some p := by
  unfold benchBots
  cases hfind : ps.find? (fun q => q.is_bot && q.alive) with
  | none => exact hp
  | some first =>
      rw [lookupPlayer_map _ _ _ (fun q => by split <;> rfl), hp]
      simp [hhum]

/-- `add_player` on a full room rejects with ROOM_FULL, room unchanged. -/
theorem addPlayer_reject (r : Room) (pl : PlayerState)
    (h : r.countedPlayerCount ≥ r.capacity) :
    addPlayer r pl = (r, false, some "ROOM_FULL") := by
  unfold addPlayer
  rw [if_pos h]

/-- `add_player` on a non-full room admits. -/
theorem addPlayer_ok (r : Room) (pl : PlayerState)
    (h : ¬ r.countedPlayerCount ≥ r.capacity) :
    (addPlayer r pl).2.1 = true ∧ (addPlayer r pl).2.2 = none := by
  unfold addPlayer
  rw [if_neg h]
  exact ⟨rfl, rfl⟩

/-- After an admitting `add_player` the status is WAITING for an IDLE
room and unchanged otherwise. -/
theorem addPlayer_admit_status (r : Room) (pl : PlayerState)
    (h : ¬ r.countedPlayerCount ≥ r.capacity) :
    (addPlayer r pl).1.status = if r.status = "IDLE" then "WAITING" else r.status := by
  unfold addPlayer
  rw [if_neg h]

/-- After an admitting `add_player` of a human, the map holds, at the new
id, exactly the given record — made a dead spectator iff RUNNING. -/
theorem addPlayer_admit_lookup (r : Room) (pl : PlayerState)
    (h : ¬ r.countedPlayerCount ≥ r.capacity) (hhum : pl.is_bot = false) :
    lookupPlayer (addPlayer r pl).1.players pl.player_id =
      some (if r.status = "RUNNING" then { pl with alive := false } else pl) := by
  unfold addPlayer
  rw [if_neg h]
  dsimp only
  set pl2 := (if r.status = "RUNNING" then ({ pl with alive := false } : PlayerState)
    else pl) with hpl2
  have hid : pl2.player_id = pl.player_id := by rw [hpl2]; split <;> rfl
  have hum : pl2.is_bot = false := by rw [hpl2]; split <;> exact hhum
  have hup := lookupPlayer_upsert r.players pl2
  rw [hid] at hup
  split_ifs with hb
  · exact lookupPlayer_benchBots_human _ _ _ hup hum
  · exact hup

/-- C7: the JOIN branch rejects with ROOM_FULL, leaving the room
untouched, exactly when the counted player count is at capacity;
otherwise the fresh human is admitted, its entry having no body and
being dead (a spectator) iff the room is RUNNING, and the `join_ok`
reply carries a snapshot iff the room is RUNNING. -/
theorem C7_join_rules (r : Room) (pid : Nat) (name : String) :
    (r.countedPlayerCount ≥ r.capacity →
      handleJoin r pid name =
        (r, { ok := false, errCode := some "ROOM_FULL", roomStatus := r.status,
              playersList := [], yourId := pid, snapshot := none })) ∧
    (¬ r.countedPlayerCount ≥ r.capacity →
      (handleJoin r pid name).2.ok = true ∧
      (∃ p, lookupPlayer (handleJoin r pid name).1.players pid = some p ∧
        p.body = [] ∧ p.is_bot = false ∧ (p.alive = false ↔ r.status = "RUNNING")) ∧
      ((handleJoin r pid name).2.snapshot ≠ none ↔ r.status = "RUNNING")) := by
  constructor
  · intro h
    unfold handleJoin
    dsimp only
    rw [addPlayer_reject r (PlayerState.new pid (name.take 10)) h]
    rfl
  · intro h
    unfold handleJoin
    dsimp only
    have hok := addPlayer_ok r (PlayerState.new pid (name.take 10)) h
    have hst := addPlayer_admit_status r (PlayerState.new pid (name.take 10)) h
    have hlk := addPlayer_admit_lookup r (PlayerState.new pid (name.take 10)) h rfl
    have hrun : ((addPlayer r (PlayerState.new pid (name.take 10))).1.status
        = "RUNNING" ↔ r.status = "RUNNING") := by
      rw [hst]; split_ifs with hi
      · constructor
        · intro hcon; exact absurd hcon (by decide)
        · intro hcon; rw [hi] at hcon; exact absurd hcon (by decide)
      · exact Iff.rfl
    rw [hok.1, if_pos rfl]
    refine ⟨rfl, ⟨?_, ?_⟩⟩
    · refine ⟨if r.status = "RUNNING" then
        { PlayerState.new pid (name.take 10) with alive := false }
        else PlayerState.new pid (name.take 10), hlk, ?_, ?_, ?_⟩
      · split <;> rfl
      · split <;> rfl
      · split_ifs with hr
        · simp [hr]
        · simp only [PlayerState.new, hr, iff_false]
          exact fun hcon => absurd hcon (by decide)
    · dsimp only
      split_ifs with hs
      · simp only [ne_eq, reduceCtorEq, not_false_eq_true, true_iff]
        exact hrun.mp hs
      · simp only [ne_eq, not_true_eq_false, false_iff]
        exact fun hcon => hs (hrun.mpr hcon)

/-- Witness for C7: joining the waiting `c9ArmRoom` admits player 5 as an
alive participant without a snapshot; a room of ten humans rejects. -/
theorem C7_join_rules_witness :
    (handleJoin c9ArmRoom 5 "guest").2.ok = true ∧
    (∃ p, lookupPlayer (handleJoin c9ArmRoom 5 "guest").1.players 5 = some p ∧
      p.body = [] ∧ p.is_bot = false ∧ (p.alive = false ↔ c9ArmRoom.status = "RUNNING")) :=
  ⟨((C7_join_rules c9ArmRoom 5 "guest").2 (by decide)).1,
   ((C7_join_rules c9ArmRoom 5 "guest").2 (by decide)).2.1⟩

/-- Generic foldl invariant preservation. -/
theorem foldl_preserve {α σ : Type _} (P : σ → Prop) (f : σ → α → σ) (l : List α) :
    ∀ (s : σ), P s → (∀ s a, a ∈ l → P s → P (f s a)) → P (l.foldl f s) := by
  induction l with
  | nil => intro s h _; exact h
  | cons a t ih =>
      intro s h hstep
      exact ih (f s a) (hstep s a (List.mem_cons_self a t) h)
        (fun s b hb hP => hstep s b (List.mem_cons_of_mem a hb) hP)

/-- Erasing cells from a finset cannot introduce a member. -/
theorem erase_foldl_not_mem (l : List Cell) :
    ∀ (occ : Finset Cell) (c : Cell), c ∉ occ →
      c ∉ l.foldl (fun o x => o.erase x) occ := by
  induction l with
  | nil => intro occ c h; exact h
  | cons a t ih =>
      intro occ c h
      exact ih _ c (fun hc => h (Finset.mem_of_mem_erase hc))

/-- `spawn_food` only ever places food on unoccupied cells. -/
theorem spawnFoodAux_disjoint (occ : Finset Cell) :
    ∀ (ds food : List Cell), (∀ c ∈ food, c ∉ occ) →
      ∀ c ∈ spawnFoodAux occ food ds, c ∉ occ := by
  intro ds
  induction ds with
  | nil =>
      intro food h c hc
      unfold spawnFoodAux at hc
      exact h c hc
  | cons d ds ih =>
      intro food h c hc
      unfold spawnFoodAux at hc
      split_ifs at hc with h3 hd
      · refine ih _ ?_ c hc
        intro x hx
        rcases List.mem_append.mp hx with hx | hx
        · exact h x hx
        · rw [List.mem_singleton.mp hx]; exact hd.1
      · exact ih _ h c hc
      · exact h c hc

/-- `spawn_food` keeps the food list within the target of 3. -/
theorem spawnFoodAux_length (occ : Finset Cell) :
    ∀ (ds food : List Cell), food.length ≤ 3 →
      (spawnFoodAux occ food ds).length ≤ 3 := by
  intro ds
  induction ds with
  | nil =>
      intro food h
      unfold spawnFoodAux
      exact h
  | cons d ds ih =>
      intro food h
      unfold spawnFoodAux
      split_ifs with h3 hd
      · exact ih _ (by simp; omega)
      · exact ih _ h
      · exact h

/-- `spawn_food` preserves food-occupancy disjointness. -/
theorem spawnFood_disjoint (occ : Finset Cell) (food draws : List Cell)
    (h : ∀ c ∈ food, c ∉ occ) : ∀ c ∈ spawnFood occ food draws, c ∉ occ :=
  spawnFoodAux_disjoint occ _ food h

/-- `spawn_food` preserves the food target bound. -/
theorem spawnFood_length (occ : Finset Cell) (food draws : List Cell)
    (h : food.length ≤ 3) : (spawnFood occ food draws).length ≤ 3 :=
  spawnFoodAux_length occ _ food h

/-- With `will_grow` false, the computed next head is not a food cell. -/
theorem intents_not_food_of_not_grow (food : List Cell) (aliveL : List PlayerState)
    (pid : Nat) (hmem : pid ∈ aliveL.map (·.player_id))
    (hwg : (intentsOf food aliveL pid).will_grow = false) :
    (intentsOf food aliveL pid).next_head ∉ food := by
  obtain ⟨q, hq, rfl⟩ := List.mem_map.mp hmem
  have hsome : (aliveL.find? (fun p => p.player_id == q.player_id)).isSome := by
    rw [List.find?_isSome]
    exact ⟨q, hq, by simp⟩
  obtain ⟨q2, hq2⟩ := Option.isSome_iff_exists.mp hsome
  unfold intentsOf at hwg ⊢
  rw [hq2] at hwg ⊢
  unfold intentOf at hwg ⊢
  dsimp only at hwg ⊢
  exact of_decide_eq_false hwg

/-- A player update whose rewrite cannot create benched bots keeps the
room free of benched bots. -/
theorem noBenchedBots_updatePlayer (ps : List PlayerState) (pid : Nat)
    (f : PlayerState → PlayerState) (hNB : noBenchedBots ps)
    (hf : ∀ q, isBenchedBot q = false → isBenchedBot (f q) = false) :
    noBenchedBots (updatePlayer ps pid f) := by
  intro q hq
  unfold updatePlayer at hq
  obtain ⟨a, ha, rfl⟩ := List.mem_map.mp hq
  split
  · exact hf a (hNB a ha)
  · exact hNB a ha

/-- Phase 3 commit of one survivor preserves: no benched bots, food list
duplicate-free, food drawn from the tick-start food, food disjoint from
the occupied set, and the food length bound. -/
theorem commitOne_preserves (dying : List Nat) (food0 : List Cell)
    (aliveL : List PlayerState) (st : CommitSt) (pid : Nat)
    (hpid : pid ∈ aliveL.map (·.player_id))
    (hNB : noBenchedBots st.players) (hnd : st.food.Nodup)
    (hsub : ∀ c ∈ st.food, c ∈ food0)
    (hdis : ∀ c ∈ st.food, c ∉ st.occ)
    (hlen : st.food.length ≤ food0.length) :
    noBenchedBots (commitOne dying (intentsOf food0 aliveL) st pid).players ∧
    (commitOne dying (intentsOf food0 aliveL) st pid).food.Nodup ∧
    (∀ c ∈ (commitOne dying (intentsOf food0 aliveL) st pid).food, c ∈ food0) ∧
    (∀ c ∈ (commitOne dying (intentsOf food0 aliveL) st pid).food,
      c ∉ (commitOne dying (intentsOf food0 aliveL) st pid).occ) ∧
    (commitOne dying (intentsOf food0 aliveL) st pid).food.length ≤ food0.length := by
  unfold commitOne
  by_cases hdy : pid ∈ dying
  · rw [if_pos hdy]
    exact ⟨hNB, hnd, hsub, hdis, hlen⟩
  · rw [if_neg hdy]
    cases hlk : lookupPlayer st.players pid with
    | none => exact ⟨hNB, hnd, hsub, hdis, hlen⟩
    | some p =>
        dsimp only
        have hupd : ∀ g : PlayerState → PlayerState,
            (∀ q, isBenchedBot (g q) = isBenchedBot q) →
            noBenchedBots (updatePlayer st.players pid g) := by
          intro g hg
          exact noBenchedBots_updatePlayer _ _ _ hNB (fun q hq => (hg q).trans hq)
        have heaten : ∀ h : (∀ c ∈ st.food, c ∈ food0),
            (∀ c ∈ st.food.erase (intentsOf food0 aliveL pid).next_head,
              c ∉ insert (intentsOf food0 aliveL pid).next_head st.occ) := by
          intro _ c hc
          rw [List.Nodup.mem_erase_iff hnd] at hc
          intro hins
          rcases Finset.mem_insert.mp hins with h | h
          · exact hc.1 h
          · exact hdis c hc.2 h
        by_cases hw : (intentsOf food0 aliveL pid).will_grow = true
        · rw [if_pos hw]
          refine ⟨hupd _ (fun q => by simp [isBenchedBot]), hnd.erase _,
            fun c hc => hsub c (List.mem_of_mem_erase hc), heaten hsub, ?_⟩
          exact le_trans (List.length_erase_le _ _) hlen
        · rw [Bool.not_eq_true] at hw
          rw [if_neg (by rw [hw]; exact Bool.false_ne_true)]
          have hnh : (intentsOf food0 aliveL pid).next_head ∉ food0 :=
            intents_not_food_of_not_grow food0 aliveL pid hpid hw
          by_cases ht : ((intentsOf food0 aliveL pid).next_head :: p.body).getLastD (0, 0)
              ≠ (intentsOf food0 aliveL pid).next_head
          · rw [if_pos ht]
            refine ⟨hupd _ (fun q => by simp [isBenchedBot]), hnd, hsub, ?_, hlen⟩
            intro c hc hmem2
            have hcne : c ≠ (intentsOf food0 aliveL pid).next_head :=
              fun heq => hnh (heq ▸ hsub c hc)
            have hins : c ∈ insert (intentsOf food0 aliveL pid).next_head st.occ :=
              Finset.mem_of_mem_erase hmem2
            rcases Finset.mem_insert.mp hins with h | h
            · exact hcne h
            · exact hdis c hc h
          · rw [if_neg ht]
            refine ⟨hupd _ (fun q => by simp [isBenchedBot]), hnd.erase _,
              fun c hc => hsub c (List.mem_of_mem_erase hc), heaten hsub, ?_⟩
            exact le_trans (List.length_erase_le _ _) hlen

/-- Phase 4 cleanup of one dying id, in a room with no benched bots,
only erases occupied cells: the revival path cannot fire. -/
theorem cleanupOne_preserves (dyingAll : List Nat) (reasons : List (Nat × String))
    (food3 : List Cell) (st : CleanupSt) (pid : Nat)
    (hNB : noBenchedBots st.players) (hdis : ∀ c ∈ food3, c ∉ st.occ) :
    noBenchedBots (cleanupOne dyingAll reasons st pid).players ∧
    (∀ c ∈ food3, c ∉ (cleanupOne dyingAll reasons st pid).occ) := by
  unfold cleanupOne
  cases hlk : lookupPlayer st.players pid with
  | none => exact ⟨hNB, hdis⟩
  | some p =>
      dsimp only
      have hNB1 : noBenchedBots (updatePlayer st.players pid (fun q =>
          { q with alive := false, eliminated := true, score := q.score / 2,
                   body := [], body_set := ∅ })) :=
        noBenchedBots_updatePlayer _ _ _ hNB (fun q _ => by simp [isBenchedBot])
      have hocc1 : ∀ c ∈ food3,
          c ∉ (p.body.foldl (fun o x => o.erase x) st.occ) :=
        fun c hc => erase_foldl_not_mem _ _ c (hdis c hc)
      have hben : (updatePlayer st.players pid (fun q =>
          { q with alive := false, eliminated := true, score := q.score / 2,
                   body := [], body_set := ∅ })).filter (fun q => isBenchedBot q) = [] :=
        List.filter_eq_nil_iff.mpr (fun a ha => by simp [hNB1 a ha])
      split_ifs with hbot hcond
      · exact ⟨hNB1, hocc1⟩
      · exact absurd hben hcond.2.2
      · exact ⟨hNB1, hocc1⟩

/-- The four phases preserve food disjointness and the food bound in a
room with no benched bots and duplicate-free food. -/
theorem stepPhases_food_inv (r2 : Room) (sd fd : List Cell)
    (hNB : noBenchedBots r2.players) (hnd : r2.food.Nodup)
    (hdis : ∀ c ∈ r2.food, c ∉ r2.occupied_set) (hlen : r2.food.length ≤ 3) :
    (∀ c ∈ (stepPhases r2 sd fd).1.food, c ∉ (stepPhases r2 sd fd).1.occupied_set) ∧
    (stepPhases r2 sd fd).1.food.length ≤ 3 := by
  have h3 : noBenchedBots (phase3 r2).players ∧ (phase3 r2).food.Nodup ∧
      (∀ c ∈ (phase3 r2).food, c ∈ r2.food) ∧
      (∀ c ∈ (phase3 r2).food, c ∉ (phase3 r2).occ) ∧
      (phase3 r2).food.length ≤ r2.food.length := by
    unfold phase3
    refine foldl_preserve (fun st : CommitSt => noBenchedBots st.players ∧
      st.food.Nodup ∧ (∀ c ∈ st.food, c ∈ r2.food) ∧
      (∀ c ∈ st.food, c ∉ st.occ) ∧ st.food.length ≤ r2.food.length)
      _ _ _ ⟨hNB, hnd, fun c hc => hc, hdis, le_refl _⟩ ?_
    intro s a ha hP
    exact commitOne_preserves _ r2.food (aliveOf r2) s a ha
      hP.1 hP.2.1 hP.2.2.1 hP.2.2.2.1 hP.2.2.2.2
  obtain ⟨hNB3, hnd3, hsub3, hdis3, hlen3⟩ := h3
  have h4 : noBenchedBots (phase4 r2 sd).players ∧
      (∀ c ∈ (phase3 r2).food, c ∉ (phase4 r2 sd).occ) := by
    unfold phase4
    refine foldl_preserve (fun st : CleanupSt => noBenchedBots st.players ∧
      (∀ c ∈ (phase3 r2).food, c ∉ st.occ)) _ _ _ ⟨hNB3, hdis3⟩ ?_
    intro s a _ hP
    exact cleanupOne_preserves _ _ _ s a hP.1 hP.2
  unfold stepPhases
  dsimp only
  constructor
  · split_ifs with he
    · exact spawnFood_disjoint _ _ fd h4.2
    · exact h4.2
  · split_ifs with he
    · exact spawnFood_length _ _ fd (le_trans hlen3 hlen)
    · exact le_trans hlen3 hlen

/-- `end_game` leaves food and occupancy untouched. -/
theorem endGame_food_occ (r : Room) :
    (endGame r).food = r.food ∧ (endGame r).occupied_set = r.occupied_set :=
  ⟨rfl, rfl⟩

/-- The bot pass cannot create benched bots. -/
theorem noBenchedBots_botPhase (bd : BotOracle) (ps : List PlayerState)
    (hNB : noBenchedBots ps) : noBenchedBots (botPhase bd ps) := by
  intro q hq
  unfold botPhase at hq
  obtain ⟨a, ha, rfl⟩ := List.mem_map.mp hq
  have hfl := botMoveOne_flags bd a
  unfold isBenchedBot
  rw [hfl.1, hfl.2.1, hfl.2.2.1]
  exact hNB a ha

/-- C2 (amended): after a tick of a RUNNING room that starts with
duplicate-free food disjoint from the occupied set, at most 3 foods, and
no benched bot (so the mid-tick revival cannot fire), the food set is
again disjoint from the occupied set and has at most 3 cells; moreover
`spawn_food` replenishment always preserves both properties.  The
revival placement, by contrast, checks only snakes' bodies and can land
on food — see the counterexample. -/
theorem C2_food_invariants (r : Room) (bd : BotOracle) (sd fd : List Cell)
    (hNB : noBenchedBots r.players) (hnd : r.food.Nodup)
    (hdis : foodDisjoint r) (hlen : r.food.length ≤ 3) :
    (foodDisjoint (step bd sd fd r).1 ∧ (step bd sd fd r).1.food.length ≤ 3) ∧
    (∀ (occ : Finset Cell) (food draws : List Cell),
      (∀ c ∈ food, c ∉ occ) → ∀ c ∈ spawnFood occ food draws, c ∉ occ) ∧
    (∀ (occ : Finset Cell) (food draws : List Cell),
      food.length ≤ 3 → (spawnFood occ food draws).length ≤ 3) := by
  refine ⟨?_, fun occ food draws h => spawnFood_disjoint occ food draws h,
    fun occ food draws h => spawnFood_length occ food draws h⟩
  unfold step
  dsimp only
  split_ifs with hs he hend
  · exact ⟨hdis, hlen⟩
  · exact ⟨hdis, hlen⟩
  · exact ⟨hdis, hlen⟩
  · exact stepPhases_food_inv _ sd fd (noBenchedBots_botPhase bd _ hNB) hnd hdis hlen

/-- Witness for C2 at a concrete tick: the tail-chase room (one snake,
no benched bots, empty food list) keeps the invariants through a tick. -/
theorem C2_food_invariants_witness :
    foodDisjoint (step noBots [] [] tailChaseRoom).1 ∧
    (step noBots [] [] tailChaseRoom).1.food.length ≤ 3 :=
  (C2_food_invariants tailChaseRoom noBots [] [] (by decide) (by decide)
    (by decide) (by decide)).1

/-- Counterexample for C2 as stated: in `c2Room` the disjointness holds
at tick start, the last human dies, the revival fires and the spawn
draw (20,20) — checked only against snake bodies, not food — places the
revived body on the food cell: after the tick (20,20) is both food and
occupied. -/
theorem C2_counterexample_revival_overlaps_food :
    foodDisjoint c2Room ∧
    isBenchedBot c2BotB = true ∧
    (step noBots [(20, 20)] [] c2Room).1.food = [(20, 20)] ∧
    ((20 : Int), (20 : Int)) ∈ (step noBots [(20, 20)] [] c2Room).1.occupied_set ∧
    ¬ foodDisjoint (step noBots [(20, 20)] [] c2Room).1 := by
  decide

/-- Membership survives a set insertion. -/
theorem pushUnique_mem (l : List Nat) (x y : Nat) (h : x ∈ l) : x ∈ pushUnique l y := by
  unfold pushUnique
  split_ifs with hy
  · exact h
  · exact List.mem_append_left _ h

/-- An inserted element is a member. -/
theorem pushUnique_self (l : List Nat) (x : Nat) : x ∈ pushUnique l x := by
  unfold pushUnique
  split_ifs with hy
  · exact hy
  · exact List.mem_append_right _ (List.mem_singleton_self x)

/-- Set insertion keeps the model list duplicate-free. -/
theorem pushUnique_nodup (l : List Nat) (x : Nat) (h : l.Nodup) :
    (pushUnique l x).Nodup := by
  unfold pushUnique
  split_ifs with hy
  · exact h
  · rw [List.nodup_append]
    refine ⟨h, List.nodup_singleton x, ?_⟩
    intro a ha hax
    rw [List.mem_singleton.mp hax] at ha
    exact hy ha

/-- Writing a reason makes it the stored reason for that key. -/
theorem find?_setReason (rs : List (Nat × String)) (k : Nat) (s : String) :
    (setReason rs k s).find? (fun e => e.1 == k) = some (k, s) := by
  unfold setReason
  split_ifs with h
  · induction rs with
    | nil => simp at h
    | cons e t ih =>
        by_cases he : e.1 = k
        · rw [List.map_cons, if_pos (by simp [he]),
            List.find?_cons_of_pos _ (by simp)]
        · have h2 : t.any (fun e => e.1 == k) = true := by
            simp only [List.any_cons, Bool.or_eq_true] at h
            rcases h with h | h
            · exact absurd (by simpa using h) he
            · exact h
          rw [List.map_cons, if_neg (by simp [he]),
            List.find?_cons_of_neg _ (by simp [he])]
          exact ih h2
  · induction rs with
    | nil => simp
    | cons e t ih =>
        simp only [List.any_cons, Bool.or_eq_true, beq_iff_eq] at h
        push_neg at h
        rw [List.cons_append, List.find?_cons_of_neg _ (by simp [h.1])]
        exact ih (by simpa using h.2)

/-- The overwrite pass of `setReason` is invisible at other keys. -/
theorem find?_reasonMap (rs : List (Nat × String)) (k k2 : Nat) (s : String)
    (hk : k2 ≠ k) :
    (rs.map (fun e => if e.1 == k then (k, s) else e)).find? (fun e => e.1 == k2)
      = rs.find? (fun e => e.1 == k2) := by
  induction rs with
  | nil => rfl
  | cons e t ih =>
      by_cases he : e.1 = k
      · rw [List.map_cons, if_pos (by simp [he]),
          List.find?_cons_of_neg _ (by simp [Ne.symm hk]),
          List.find?_cons_of_neg _ (by simp [he, Ne.symm hk]), ih]
      · rw [List.map_cons, if_neg (by simp [he])]
        by_cases he2 : e.1 = k2
        · rw [List.find?_cons_of_pos _ (by simp [he2]),
            List.find?_cons_of_pos _ (by simp [he2])]
        · rw [List.find?_cons_of_neg _ (by simp [he2]),
            List.find?_cons_of_neg _ (by simp [he2]), ih]

/-- Appending an entry with a different key is invisible to a lookup. -/
theorem find?_append_single (rs : List (Nat × String)) (e0 : Nat × String) (k2 : Nat)
    (h : ¬ e0.1 = k2) :
    (rs ++ [e0]).find? (fun e => e.1 == k2) = rs.find? (fun e => e.1 == k2) := by
  induction rs with
  | nil =>
      rw [List.nil_append, List.find?_cons_of_neg _ (by simp [h])]
  | cons e t ih =>
      by_cases he : e.1 = k2
      · rw [List.cons_append, List.find?_cons_of_pos _ (by simp [he]),
          List.find?_cons_of_pos _ (by simp [he])]
      · rw [List.cons_append, List.find?_cons_of_neg _ (by simp [he]),
          List.find?_cons_of_neg _ (by simp [he]), ih]

/-- Writing a reason for another key leaves a key's reason unchanged. -/
theorem find?_setReason_ne (rs : List (Nat × String)) (k k2 : Nat) (s : String)
    (hk : k2 ≠ k) :
    (setReason rs k s).find? (fun e => e.1 == k2) = rs.find? (fun e => e.1 == k2) := by
  unfold setReason
  split_ifs with h
  · exact find?_reasonMap rs k k2 s hk
  · exact find?_append_single rs (k, s) k2 (by simpa using Ne.symm hk)

/-- `death_reasons[k] = s` after `death_reasons[k] := s`. -/
theorem getReason_set (rs : List (Nat × String)) (k : Nat) (s : String) :
    getReason (setReason rs k s) k = s := by
  unfold getReason
  rw [find?_setReason]
  rfl

/-- A write at another key does not change a key's reason. -/
theorem getReason_set_ne (rs : List (Nat × String)) (k k2 : Nat) (s : String)
    (hk : k2 ≠ k) : getReason (setReason rs k s) k2 = getReason rs k2 := by
  unfold getReason
  rw [find?_setReason_ne rs k k2 s hk]

/-- One head-on comparison only ever grows the dying set. -/
theorem headOnOne_dying_mono (intents : Nat → Intent) (p : PlayerState)
    (acc : List Nat × List (Nat × String)) (other : PlayerState) (x : Nat)
    (hx : x ∈ acc.1) : x ∈ (headOnOne intents p acc other).1 := by
  unfold headOnOne
  split_ifs with hc
  · exact pushUnique_mem _ _ _ (pushUnique_mem _ _ _ hx)
  · exact hx

/-- One head-on comparison writes only the reason "head-on", so a key
already carrying "head-on" keeps it. -/
theorem headOnOne_reason_keep (intents : Nat → Intent) (p : PlayerState)
    (acc : List Nat × List (Nat × String)) (other : PlayerState) (k : Nat)
    (hk : getReason acc.2 k = "head-on") :
    getReason (headOnOne intents p acc other).2 k = "head-on" := by
  unfold headOnOne
  split_ifs with hc
  · dsimp only
    by_cases hko : k = other.player_id
    · rw [hko, getReason_set]
    · rw [getReason_set_ne _ _ _ _ hko]
      by_cases hkp : k = p.player_id
      · rw [hkp, getReason_set]
      · rw [getReason_set_ne _ _ _ _ hkp]
        exact hk
  · exact hk

/-- One head-on comparison keeps the dying list duplicate-free. -/
theorem headOnOne_nodup (intents : Nat → Intent) (p : PlayerState)
    (acc : List Nat × List (Nat × String)) (other : PlayerState)
    (h : acc.1.Nodup) : (headOnOne intents p acc other).1.Nodup := by
  unfold headOnOne
  split_ifs with hc
  · exact pushUnique_nodup _ _ (pushUnique_nodup _ _ h)
  · exact h

/-- The head-on scan only ever grows the dying set. -/
theorem headOnScan_dying_mono (alive : List PlayerState) (intents : Nat → Intent)
    (p : PlayerState) (acc : List Nat × List (Nat × String)) (x : Nat)
    (hx : x ∈ acc.1) : x ∈ (headOnScan alive intents p acc).1 := by
  unfold headOnScan
  exact foldl_preserve (fun a => x ∈ a.1) _ _ _ hx
    (fun s a _ hs => headOnOne_dying_mono intents p s a x hs)

/-- The head-on scan preserves an already written "head-on" reason. -/
theorem headOnScan_reason_keep (alive : List PlayerState) (intents : Nat → Intent)
    (p : PlayerState) (acc : List Nat × List (Nat × String)) (k : Nat)
    (hk : getReason acc.2 k = "head-on") :
    getReason (headOnScan alive intents p acc).2 k = "head-on" := by
  unfold headOnScan
  exact foldl_preserve (fun a => getReason a.2 k = "head-on") _ _ _ hk
    (fun s a _ hs => headOnOne_reason_keep intents p s a k hs)

/-- The head-on scan keeps the dying list duplicate-free. -/
theorem headOnScan_nodup (alive : List PlayerState) (intents : Nat → Intent)
    (p : PlayerState) (acc : List Nat × List (Nat × String))
    (h : acc.1.Nodup) : (headOnScan alive intents p acc).1.Nodup := by
  unfold headOnScan
  exact foldl_preserve (fun a => a.1.Nodup) _ _ _ h
    (fun s a _ hs => headOnOne_nodup intents p s a hs)

/-- A scan that encounters a distinct alive partner with the same next
head marks both players dying with reason "head-on". -/
theorem headOnScan_adds (alive : List PlayerState) (intents : Nat → Intent)
    (p q : PlayerState) (acc : List Nat × List (Nat × String))
    (hq : q ∈ alive) (hne : q.player_id ≠ p.player_id)
    (hsame : (intents q.player_id).next_head = (intents p.player_id).next_head) :
    p.player_id ∈ (headOnScan alive intents p acc).1 ∧
    q.player_id ∈ (headOnScan alive intents p acc).1 ∧
    getReason (headOnScan alive intents p acc).2 p.player_id = "head-on" ∧
    getReason (headOnScan alive intents p acc).2 q.player_id = "head-on" := by
  unfold headOnScan
  obtain ⟨l1, l2, rfl⟩ := List.append_of_mem hq
  rw [List.foldl_append, List.foldl_cons]
  have hstep : ∀ (s : List Nat × List (Nat × String)) (a : PlayerState), a ∈ l2 →
      (p.player_id ∈ s.1 ∧ q.player_id ∈ s.1 ∧
        getReason s.2 p.player_id = "head-on" ∧
        getReason s.2 q.player_id = "head-on") →
      (p.player_id ∈ (headOnOne intents p s a).1 ∧
        q.player_id ∈ (headOnOne intents p s a).1 ∧
        getReason (headOnOne intents p s a).2 p.player_id = "head-on" ∧
        getReason (headOnOne intents p s a).2 q.player_id = "head-on") :=
    fun s a _ hs =>
      ⟨headOnOne_dying_mono intents p s a _ hs.1,
       headOnOne_dying_mono intents p s a _ hs.2.1,
       headOnOne_reason_keep intents p s a _ hs.2.2.1,
       headOnOne_reason_keep intents p s a _ hs.2.2.2⟩
  refine foldl_preserve _ _ l2 _ ?_ hstep
  unfold headOnOne
  rw [if_pos ⟨hne, hsame⟩]
  dsimp only
  refine ⟨pushUnique_mem _ _ _ (pushUnique_self _ _), pushUnique_self _ _, ?_, ?_⟩
  · rw [getReason_set_ne _ _ _ _ (Ne.symm hne), getReason_set]
  · rw [getReason_set]

/-- The Phase 2 checks for one player only ever grow the dying set. -/
theorem arbOne_dying_mono (r2 : Room) (alive : List PlayerState)
    (intents : Nat → Intent) (tails : Finset Cell)
    (acc : List Nat × List (Nat × String)) (a : PlayerState) (x : Nat)
    (hx : x ∈ acc.1) : x ∈ (arbOne r2 alive intents tails acc a).1 := by
  unfold arbOne
  dsimp only
  split_ifs with h1 h2
  · exact pushUnique_mem _ _ _ hx
  · exact pushUnique_mem _ _ _ hx
  · exact headOnScan_dying_mono alive intents a acc x hx

/-- The Phase 2 checks keep the dying list duplicate-free. -/
theorem arbOne_nodup (r2 : Room) (alive : List PlayerState)
    (intents : Nat → Intent) (tails : Finset Cell)
    (acc : List Nat × List (Nat × String)) (a : PlayerState)
    (h : acc.1.Nodup) : (arbOne r2 alive intents tails acc a).1.Nodup := by
  unfold arbOne
  dsimp only
  split_ifs with h1 h2
  · exact pushUnique_nodup _ _ h
  · exact pushUnique_nodup _ _ h
  · exact headOnScan_nodup alive intents a acc h

/-- A key whose player's next head is in bounds and not body-blocked
keeps an already written "head-on" reason through any player's checks:
the wall and body writes only hit the checked player's own key. -/
theorem arbOne_reason_keep (r2 : Room) (alive : List PlayerState)
    (intents : Nat → Intent) (tails : Finset Cell)
    (acc : List Nat × List (Nat × String)) (a : PlayerState) (k : Nat)
    (hk : getReason acc.2 k = "head-on")
    (hsafe : a.player_id = k → ¬ outOfBounds (intents k).next_head ∧
      ¬ ((intents k).next_head ∈ r2.occupied_set ∧ (intents k).next_head ∉ tails)) :
    getReason (arbOne r2 alive intents tails acc a).2 k = "head-on" := by
  unfold arbOne
  dsimp only
  split_ifs with h1 h2
  · by_cases hak : a.player_id = k
    · rw [hak] at h1
      exact absurd h1 (hsafe hak).1
    · rw [getReason_set_ne _ _ _ _ (fun he => hak he.symm)]
      exact hk
  · by_cases hak : a.player_id = k
    · rw [hak] at h2
      exact absurd h2 (hsafe hak).2
    · rw [getReason_set_ne _ _ _ _ (fun he => hak he.symm)]
      exact hk
  · exact headOnScan_reason_keep alive intents a acc k hk

/-- Processing a player that has a distinct alive partner with the same
next head always marks the player dying. -/
theorem arbOne_adds_self (r2 : Room) (alive : List PlayerState)
    (intents : Nat → Intent) (tails : Finset Cell)
    (acc : List Nat × List (Nat × String)) (p q : PlayerState)
    (hq : q ∈ alive) (hne : q.player_id ≠ p.player_id)
    (hsame : (intents q.player_id).next_head = (intents p.player_id).next_head) :
    p.player_id ∈ (arbOne r2 alive intents tails acc p).1 := by
  unfold arbOne
  dsimp only
  split_ifs with h1 h2
  · exact pushUnique_self _ _
  · exact pushUnique_self _ _
  · exact (headOnScan_adds alive intents p q acc hq hne hsame).1

/-- With duplicate-free ids, a member of the map is its own lookup. -/
theorem lookupPlayer_of_mem_nodup (ps : List PlayerState) (p : PlayerState)
    (hp : p ∈ ps) (hids : (ps.map (·.player_id)).Nodup) :
    lookupPlayer ps p.player_id = some p := by
  induction ps with
  | nil => exact absurd hp (List.not_mem_nil p)
  | cons a t ih =>
      rcases List.mem_cons.mp hp with rfl | hpt
      · unfold lookupPlayer
        rw [List.find?_cons_of_pos _ (by simp)]
      · have hne : a.player_id ≠ p.player_id := by
          intro he
          rw [List.map_cons, List.nodup_cons] at hids
          exact hids.1 (he ▸ List.mem_map_of_mem (·.player_id) hpt)
        unfold lookupPlayer
        rw [List.find?_cons_of_neg _ (by simp [hne])]
        exact ih hpt (by rw [List.map_cons, List.nodup_cons] at hids; exact hids.2)

/-- An id-preserving update at another id is invisible to a lookup. -/
theorem lookupPlayer_updatePlayer_ne (ps : List PlayerState) (pid : Nat)
    (f : PlayerState → PlayerState) (x : Nat) (hne : x ≠ pid)
    (hf : ∀ q, (f q).player_id = q.player_id) :
    lookupPlayer (updatePlayer ps pid f) x = lookupPlayer ps x := by
  induction ps with
  | nil => rfl
  | cons a t ih =>
      unfold updatePlayer at ih ⊢
      unfold lookupPlayer at ih ⊢
      by_cases ha : a.player_id = pid
      · rw [List.map_cons, if_pos (by simp [ha]),
          List.find?_cons_of_neg _ (by simp [hf, ha, Ne.symm hne]),
          List.find?_cons_of_neg _ (by simp [ha, Ne.symm hne])]
        exact ih
      · rw [List.map_cons, if_neg (by simp [ha])]
        by_cases hx : a.player_id = x
        · rw [List.find?_cons_of_pos _ (by simp [hx]),
            List.find?_cons_of_pos _ (by simp [hx])]
        · rw [List.find?_cons_of_neg _ (by simp [hx]),
            List.find?_cons_of_neg _ (by simp [hx])]
          exact ih

/-- The dying list built by Phase 2 is duplicate-free. -/
theorem computeDying_nodup (r2 : Room) (alive : List PlayerState)
    (intents : Nat → Intent) (tails : Finset Cell) :
    (computeDying r2 alive intents tails).1.Nodup := by
  unfold computeDying
  refine foldl_preserve (fun acc : List Nat × List (Nat × String) => acc.1.Nodup)
    _ _ _ ?_ (fun s a _ hs => arbOne_nodup r2 alive intents tails s a hs)
  exact foldl_preserve (fun l : List Nat => l.Nodup) _ _ _ List.nodup_nil
    (fun s a _ hs => pushUnique_nodup s a hs)

/-- Phase 2 marks dying every alive player that has a distinct alive
partner with the same computed next head. -/
theorem computeDying_mem_pair (r2 : Room) (alive : List PlayerState)
    (intents : Nat → Intent) (tails : Finset Cell) (p q : PlayerState)
    (hp : p ∈ alive) (hq : q ∈ alive) (hne : q.player_id ≠ p.player_id)
    (hsame : (intents q.player_id).next_head = (intents p.player_id).next_head) :
    p.player_id ∈ (computeDying r2 alive intents tails).1 := by
  unfold computeDying
  obtain ⟨l1, l2, rfl⟩ := List.append_of_mem hp
  rw [List.foldl_append, List.foldl_cons]
  refine foldl_preserve (fun acc : List Nat × List (Nat × String) =>
    p.player_id ∈ acc.1) _ l2 _ ?_
    (fun s a _ hs => arbOne_dying_mono r2 _ intents tails s a _ hs)
  exact arbOne_adds_self r2 _ intents tails _ p q hq hne hsame

/-- Phase 2 records the reason "head-on" for both members of a head-on
pair whose contested cell is in bounds and not body-blocked. -/
theorem computeDying_reasons_pair (r2 : Room) (alive : List PlayerState)
    (intents : Nat → Intent) (tails : Finset Cell) (p q : PlayerState)
    (hp : p ∈ alive) (hq : q ∈ alive) (hne : q.player_id ≠ p.player_id)
    (hsame : (intents q.player_id).next_head = (intents p.player_id).next_head)
    (hok : ¬ outOfBounds (intents p.player_id).next_head)
    (hpass : ¬ ((intents p.player_id).next_head ∈ r2.occupied_set ∧
      (intents p.player_id).next_head ∉ tails)) :
    getReason (computeDying r2 alive intents tails).2 p.player_id = "head-on" ∧
    getReason (computeDying r2 alive intents tails).2 q.player_id = "head-on" := by
  unfold computeDying
  obtain ⟨l1, l2, rfl⟩ := List.append_of_mem hp
  rw [List.foldl_append, List.foldl_cons]
  refine foldl_preserve (fun acc : List Nat × List (Nat × String) =>
    getReason acc.2 p.player_id = "head-on" ∧
    getReason acc.2 q.player_id = "head-on") _ l2 _ ?_ ?_
  · unfold arbOne
    dsimp only
    rw [if_neg hok, if_neg hpass]
    exact ⟨(headOnScan_adds _ intents p q _ hq hne hsame).2.2.1,
      (headOnScan_adds _ intents p q _ hq hne hsame).2.2.2⟩
  · intro s a _ hs
    constructor
    · refine arbOne_reason_keep r2 _ intents tails s a _ hs.1 ?_
      intro hak
      exact ⟨hok, hpass⟩
    · refine arbOne_reason_keep r2 _ intents tails s a _ hs.2 ?_
      intro hak
      rw [hsame]
      exact ⟨hok, hpass⟩

/-- The Phase 3 commit keeps the room free of benched bots. -/
theorem commitOne_noBenched (dying : List Nat) (intents : Nat → Intent)
    (st : CommitSt) (pid : Nat) (hNB : noBenchedBots st.players) :
    noBenchedBots (commitOne dying intents st pid).players := by
  unfold commitOne
  by_cases hdy : pid ∈ dying
  · rw [if_pos hdy]
    exact hNB
  · rw [if_neg hdy]
    cases hlk : lookupPlayer st.players pid with
    | none => exact hNB
    | some p =>
        dsimp only
        split_ifs <;>
          exact noBenchedBots_updatePlayer _ _ _ hNB
            (fun q hq => by simpa [isBenchedBot] using hq)

/-- The Phase 3 commit of a player leaves every other id's entry (and
every dying id's entry) untouched. -/
theorem commitOne_lookup_pres (dying : List Nat) (intents : Nat → Intent)
    (st : CommitSt) (pid x : Nat) (px : PlayerState)
    (h : pid ∈ dying ∨ x ≠ pid)
    (hlk : lookupPlayer st.players x = some px) :
    lookupPlayer (commitOne dying intents st pid).players x = some px := by
  unfold commitOne
  by_cases hdy : pid ∈ dying
  · rw [if_pos hdy]
    exact hlk
  · rw [if_neg hdy]
    have hxne : x ≠ pid := h.resolve_left hdy
    cases hlk2 : lookupPlayer st.players pid with
    | none => exact hlk
    | some p =>
        dsimp only
        split_ifs <;>
          exact Eq.trans (lookupPlayer_updatePlayer_ne _ _ _ _ hxne (fun q => rfl)) hlk

/-- Phase 3 keeps the room free of benched bots. -/
theorem phase3_noBenched (r2 : Room) (hNB : noBenchedBots r2.players) :
    noBenchedBots (phase3 r2).players := by
  unfold phase3
  exact foldl_preserve (fun st : CommitSt => noBenchedBots st.players) _ _ _ hNB
    (fun s a _ hs => commitOne_noBenched _ _ s a hs)

/-- A dying player's map entry survives Phase 3 unchanged. -/
theorem phase3_lookup_dying (r2 : Room) (x : Nat) (px : PlayerState)
    (hx : x ∈ (dyingR r2).1)
    (hlk : lookupPlayer r2.players x = some px) :
    lookupPlayer (phase3 r2).players x = some px := by
  unfold phase3
  refine foldl_preserve (fun st : CommitSt =>
    lookupPlayer st.players x = some px) _ _ _ hlk ?_
  intro s a _ hs
  by_cases hax : a = x
  · exact commitOne_lookup_pres _ _ s a x px (Or.inl (hax ▸ hx)) hs
  · exact commitOne_lookup_pres _ _ s a x px (Or.inr (fun he => hax he.symm)) hs

/-- Erasing a list of cells removes each of them. -/
theorem erase_foldl_mem (l : List Cell) :
    ∀ (occ : Finset Cell) (z : Cell), z ∈ l →
      z ∉ l.foldl (fun o x => o.erase x) occ := by
  induction l with
  | nil => intro occ z hz; exact absurd hz (List.not_mem_nil z)
  | cons a t ih =>
      intro occ z hz
      rw [List.foldl_cons]
      rcases List.mem_cons.mp hz with rfl | hzt
      · exact erase_foldl_not_mem t _ z (Finset.not_mem_erase z occ)
      · exact ih _ z hzt

/-- With no benched bots, the cleanup of a dying id leaves every other
id's entry untouched (the revival path cannot fire). -/
theorem cleanupOne_lookup_ne (dyingAll : List Nat) (reasons : List (Nat × String))
    (st : CleanupSt) (pid x : Nat) (px : PlayerState) (hne : x ≠ pid)
    (hNB : noBenchedBots st.players) (hlk : lookupPlayer st.players x = some px) :
    lookupPlayer (cleanupOne dyingAll reasons st pid).players x = some px := by
  unfold cleanupOne
  cases hlk2 : lookupPlayer st.players pid with
  | none => exact hlk
  | some p =>
      dsimp only
      have hNB1 : noBenchedBots (updatePlayer st.players pid (fun q =>
          { q with alive := false, eliminated := true, score := q.score / 2,
                   body := [], body_set := ∅ })) :=
        noBenchedBots_updatePlayer _ _ _ hNB (fun q _ => by simp [isBenchedBot])
      have hben : (updatePlayer st.players pid (fun q =>
          { q with alive := false, eliminated := true, score := q.score / 2,
                   body := [], body_set := ∅ })).filter (fun q => isBenchedBot q) = [] :=
        List.filter_eq_nil_iff.mpr (fun a ha => by simp [hNB1 a ha])
      have hl1 := Eq.trans (lookupPlayer_updatePlayer_ne st.players pid (fun q =>
        { q with alive := false, eliminated := true, score := q.score / 2,
                 body := [], body_set := (∅ : Finset Cell) }) x hne (fun q => rfl)) hlk
      split_ifs with hbot hcond
      · exact hl1
      · exact absurd hben hcond.2.2
      · exact hl1

/-- With no benched bots, the cleanup of a dying id erases all of its
body cells from the occupied set. -/
theorem cleanupOne_erases (dyingAll : List Nat) (reasons : List (Nat × String))
    (st : CleanupSt) (x : Nat) (px : PlayerState)
    (hNB : noBenchedBots st.players) (hlk : lookupPlayer st.players x = some px) :
    ∀ z ∈ px.body, z ∉ (cleanupOne dyingAll reasons st x).occ := by
  intro z hz
  unfold cleanupOne
  rw [hlk]
  dsimp only
  have hNB1 : noBenchedBots (updatePlayer st.players x (fun q =>
      { q with alive := false, eliminated := true, score := q.score / 2,
               body := [], body_set := ∅ })) :=
    noBenchedBots_updatePlayer _ _ _ hNB (fun q _ => by simp [isBenchedBot])
  have hben : (updatePlayer st.players x (fun q =>
      { q with alive := false, eliminated := true, score := q.score / 2,
               body := [], body_set := ∅ })).filter (fun q => isBenchedBot q) = [] :=
    List.filter_eq_nil_iff.mpr (fun a ha => by simp [hNB1 a ha])
  have hgone : z ∉ px.body.foldl (fun o c => o.erase c) st.occ :=
    erase_foldl_mem px.body st.occ z hz
  split_ifs with hbot hcond
  · exact hgone
  · exact absurd hben hcond.2.2
  · exact hgone

/-- The Phase 4 no-benched-bots preservation, standalone. -/
theorem cleanupOne_noBenched (dyingAll : List Nat) (reasons : List (Nat × String))
    (st : CleanupSt) (pid : Nat) (hNB : noBenchedBots st.players) :
    noBenchedBots (cleanupOne dyingAll reasons st pid).players :=
  (cleanupOne_preserves dyingAll reasons [] st pid hNB
    (fun c hc => absurd hc (List.not_mem_nil c))).1

/-- With no benched bots, a single cleanup step cannot re-occupy a cell. -/
theorem cleanupOne_cell_mono (dyingAll : List Nat) (reasons : List (Nat × String))
    (st : CleanupSt) (pid : Nat) (c : Cell) (hNB : noBenchedBots st.players)
    (hc : c ∉ st.occ) : c ∉ (cleanupOne dyingAll reasons st pid).occ :=
  (cleanupOne_preserves dyingAll reasons [c] st pid hNB
    (fun x hx => by rw [List.mem_singleton.mp hx]; exact hc)).2 c
    (List.mem_singleton_self c)

/-- With no benched bots after Phase 3, a cell free after Phase 3 stays
free after Phase 4. -/
theorem phase4_cell_mono (r2 : Room) (sd : List Cell) (c : Cell)
    (hNB3 : noBenchedBots (phase3 r2).players) (hc : c ∉ (phase3 r2).occ) :
    c ∉ (phase4 r2 sd).occ := by
  unfold phase4
  exact (foldl_preserve (fun st : CleanupSt => noBenchedBots st.players ∧ c ∉ st.occ)
    _ _ _ ⟨hNB3, hc⟩ (fun s a _ hs =>
      ⟨cleanupOne_noBenched _ _ s a hs.1,
       cleanupOne_cell_mono _ _ s a c hs.1 hs.2⟩)).2

/-- With no benched bots, the whole cleanup fold frees every body cell
of a processed dying id whose entry it finds intact. -/
theorem cleanup_fold_body (dyingAll : List Nat) (reasons : List (Nat × String))
    (dys : List Nat) (init : CleanupSt) (x : Nat) (px : PlayerState)
    (hx : x ∈ dys) (hnd : dys.Nodup) (hNB : noBenchedBots init.players)
    (hlk : lookupPlayer init.players x = some px) :
    ∀ z ∈ px.body, z ∉ (dys.foldl (cleanupOne dyingAll reasons) init).occ := by
  intro z hz
  obtain ⟨d1, d2, rfl⟩ := List.append_of_mem hx
  have hx12 : x ∉ d1 ∧ x ∉ d2 := by
    obtain ⟨hn1, hn2, hdisj⟩ := List.nodup_append.mp hnd
    exact ⟨fun hm => hdisj hm (List.mem_cons_self x d2), (List.nodup_cons.mp hn2).1⟩
  rw [List.foldl_append, List.foldl_cons]
  have h1 := foldl_preserve (fun st : CleanupSt =>
    noBenchedBots st.players ∧ lookupPlayer st.players x = some px)
    (cleanupOne dyingAll reasons) d1 init ⟨hNB, hlk⟩
    (fun s a ha hs =>
      ⟨cleanupOne_noBenched _ _ s a hs.1,
       cleanupOne_lookup_ne _ _ s a x px (fun he => hx12.1 (he ▸ ha)) hs.1 hs.2⟩)
  have h2 : noBenchedBots (cleanupOne dyingAll reasons
        (List.foldl (cleanupOne dyingAll reasons) init d1) x).players ∧
      z ∉ (cleanupOne dyingAll reasons
        (List.foldl (cleanupOne dyingAll reasons) init d1) x).occ :=
    ⟨cleanupOne_noBenched _ _ _ x h1.1,
     cleanupOne_erases _ _ _ x px h1.1 h1.2 z hz⟩
  exact (foldl_preserve (fun st : CleanupSt =>
    noBenchedBots st.players ∧ z ∉ st.occ)
    (cleanupOne dyingAll reasons) d2 _ h2
    (fun s a _ hs =>
      ⟨cleanupOne_noBenched _ _ s a hs.1,
       cleanupOne_cell_mono _ _ s a z hs.1 hs.2⟩)).2

/-- In a room with no benched bots, Phase 4 frees every body cell of a
dying player whose entry survived Phase 3. -/
theorem phase4_body_cleanup (r2 : Room) (sd : List Cell) (x : Nat) (px : PlayerState)
    (hNB3 : noBenchedBots (phase3 r2).players)
    (hx : x ∈ (dyingR r2).1)
    (hlk3 : lookupPlayer (phase3 r2).players x = some px) :
    ∀ z ∈ px.body, z ∉ (phase4 r2 sd).occ := by
  unfold phase4
  exact cleanup_fold_body (dyingR r2).1 (dyingR r2).2 (dyingR r2).1 _ x px hx
    (by unfold dyingR; exact computeDying_nodup _ _ _ _) hNB3 hlk3

/-- A commit step cannot move a snake onto cell `c` unless the moving
survivor's computed next head is `c`. -/
theorem commitOne_cell_frame (r2 : Room) (st : CommitSt) (a : Nat) (c : Cell)
    (hnc : a ∉ (dyingR r2).1 → (intentsR r2 a).next_head ≠ c)
    (hs : c ∉ st.occ) : c ∉ (commitOne (dyingR r2).1 (intentsR r2) st a).occ := by
  unfold commitOne
  by_cases hdy : a ∈ (dyingR r2).1
  · rw [if_pos hdy]
    exact hs
  · rw [if_neg hdy]
    cases hlk : lookupPlayer st.players a with
    | none => exact hs
    | some p =>
        dsimp only
        have hnh : (intentsR r2 a).next_head ≠ c := hnc hdy
        split_ifs with h1 h2
        · intro hins
          rcases Finset.mem_insert.mp hins with h | h
          · exact hnh h.symm
          · exact hs h
        · intro hmem
          rcases Finset.mem_insert.mp (Finset.mem_of_mem_erase hmem) with h | h
          · exact hnh h.symm
          · exact hs h
        · intro hins
          rcases Finset.mem_insert.mp hins with h | h
          · exact hnh h.symm
          · exact hs h

/-- A cell no surviving snake moves onto, free at tick start, stays free
through Phase 3. -/
theorem phase3_cell_not_mem (r2 : Room) (c : Cell)
    (hsur : ∀ pid ∈ (aliveOf r2).map (·.player_id), pid ∉ (dyingR r2).1 →
      (intentsR r2 pid).next_head ≠ c)
    (hc0 : c ∉ r2.occupied_set) : c ∉ (phase3 r2).occ := by
  unfold phase3
  exact foldl_preserve (fun st : CommitSt => c ∉ st.occ)
    (commitOne (dyingR r2).1 (intentsR r2)) _ _ hc0
    (fun s a ha hs => commitOne_cell_frame r2 s a c (hsur a ha) hs)

/-- The alive list inherits duplicate-free ids from the player map. -/
theorem aliveOf_ids_nodup (r2 : Room)
    (h : (r2.players.map (·.player_id)).Nodup) :
    ((aliveOf r2).map (·.player_id)).Nodup := by
  unfold aliveOf
  exact List.Nodup.sublist (List.Sublist.map _ (List.filter_sublist _)) h

/-- With duplicate-free ids the intent table at an alive player's id is
that player's Phase 1 record. -/
theorem intentsR_eq (r2 : Room) (p : PlayerState) (hp : p ∈ aliveOf r2)
    (hids : ((aliveOf r2).map (·.player_id)).Nodup) :
    intentsR r2 p.player_id = intentOf r2.food p := by
  have hfind := lookupPlayer_of_mem_nodup (aliveOf r2) p hp hids
  unfold lookupPlayer at hfind
  unfold intentsR intentsOf
  rw [hfind]

/-- The bot pass does not change the id sequence of the player map. -/
theorem botPhase_ids (bd : BotOracle) (ps : List PlayerState) :
    (botPhase bd ps).map (·.player_id) = ps.map (·.player_id) := by
  unfold botPhase
  rw [List.map_map]
  exact List.map_congr_left (fun a _ => (botMoveOne_flags bd a).2.2.2)

/-- Two distinct members force length at least two. -/
theorem two_mem_le_length (l : List PlayerState) (p q : PlayerState)
    (hp : p ∈ l) (hq : q ∈ l) (hne : p ≠ q) : 2 ≤ l.length := by
  obtain ⟨l1, l2, rfl⟩ := List.append_of_mem hp
  rw [List.length_append, List.length_cons]
  rcases List.mem_append.mp hq with h | h
  · have := List.length_pos_of_mem h
    omega
  · rcases List.mem_cons.mp h with rfl | h2
    · exact absurd rfl hne
    · have := List.length_pos_of_mem h2
      omega

/-- A tick of a RUNNING room with at least two alive players does not
end the round: it runs the four phases on the bot-updated room. -/
theorem step_run (bd : BotOracle) (sd fd : List Cell) (r : Room)
    (hrun : r.status = "RUNNING")
    (h2 : 2 ≤ (aliveOf (preRoom bd r)).length) :
    step bd sd fd r = stepPhases (preRoom bd r) sd fd := by
  have hlen : (r.players.filter (·.alive)).length = (aliveOf (preRoom bd r)).length := by
    unfold aliveOf preRoom
    dsimp only
    rw [← List.countP_eq_length_filter, ← List.countP_eq_length_filter]
    exact (countP_botPhase bd r.players (fun p => p.alive)
      (fun p => (botMoveOne_flags bd p).2.1)).symm
  unfold step
  rw [if_neg (by simp [hrun])]
  dsimp only
  rw [if_neg (fun hcon : (r.players.filter (·.alive)).isEmpty = true => by
    rw [List.isEmpty_iff] at hcon
    rw [hcon] at hlen
    simp at hlen
    omega)]
  rw [if_neg (fun hcon => by
    have := hcon.1
    omega)]
  rfl

/-- A cell is in `tails_to_free` exactly when some alive player's Phase 1
record frees it. -/
theorem tailsR_mem (r2 : Room) (c : Cell) :
    c ∈ tailsR r2 ↔
      ∃ s ∈ aliveOf r2, (intentsR r2 s.player_id).tail_to_free = some c := by
  unfold tailsR
  rw [List.mem_toFinset, List.mem_filterMap]

/-- One surviving snake's commit: when its popped tail is `c` and its new
head is not `c`, the cell `c` is absent from the committed occupied set. -/
theorem commitOne_pop_erases (dying : List Nat) (intents : Nat → Intent)
    (st : CommitSt) (pid : Nat) (p : PlayerState) (c : Cell)
    (hnd : pid ∉ dying)
    (hlk : lookupPlayer st.players pid = some p)
    (hwg : (intents pid).will_grow = false)
    (htail : ((intents pid).next_head :: p.body).getLastD (0, 0) = c)
    (hcnh : (intents pid).next_head ≠ c) :
    c ∉ (commitOne dying intents st pid).occ := by
  unfold commitOne
  rw [if_neg hnd, hlk]
  dsimp only
  rw [if_neg (by rw [hwg]; exact Bool.false_ne_true)]
  rw [if_pos (show ((intents pid).next_head :: p.body).getLastD (0, 0)
      ≠ (intents pid).next_head from by
    rw [htail]; exact fun he => hcnh he.symm)]
  dsimp only
  rw [htail]
  exact Finset.not_mem_erase c _

/-- A surviving snake that frees the cell `c` this tick (its popped tail
is `c`) erases `c` during its Phase 3 commit, and no later survivor puts
a head back on it. -/
theorem phase3_tail_freed (r2 : Room) (s0 : PlayerState) (c : Cell)
    (hpids : (r2.players.map (·.player_id)).Nodup)
    (hs0 : s0 ∈ aliveOf r2)
    (hs0nd : s0.player_id ∉ (dyingR r2).1)
    (hwg : (intentsR r2 s0.player_id).will_grow = false)
    (htail : ((intentsR r2 s0.player_id).next_head :: s0.body).getLastD (0, 0) = c)
    (hsur : ∀ pid ∈ (aliveOf r2).map (·.player_id), pid ∉ (dyingR r2).1 →
      (intentsR r2 pid).next_head ≠ c) :
    c ∉ (phase3 r2).occ := by
  have hids := aliveOf_ids_nodup r2 hpids
  have hinit : lookupPlayer r2.players s0.player_id = some s0 :=
    lookupPlayer_of_mem_nodup r2.players s0 (List.mem_of_mem_filter hs0) hpids
  have hcnh : (intentsR r2 s0.player_id).next_head ≠ c :=
    hsur s0.player_id (List.mem_map_of_mem (·.player_id) hs0) hs0nd
  unfold phase3
  obtain ⟨a1, a2, hsplit⟩ := List.append_of_mem hs0
  have hidm : s0.player_id ∉ a1.map (·.player_id) := by
    rw [hsplit, List.map_append, List.map_cons] at hids
    obtain ⟨h1, h2, hdisj⟩ := List.nodup_append.mp hids
    exact fun hm => hdisj hm (List.mem_cons_self _ _)
  rw [hsplit, List.map_append, List.map_cons, List.foldl_append, List.foldl_cons]
  have h1 := foldl_preserve (fun st : CommitSt =>
      lookupPlayer st.players s0.player_id = some s0)
    (commitOne (dyingR r2).1 (intentsR r2)) (a1.map (·.player_id))
    { players := r2.players, occ := r2.occupied_set, food := r2.food,
      moves := [], eaten := false }
    hinit
    (fun st pidA ha hs => by
      by_cases hdy : pidA ∈ (dyingR r2).1
      · exact commitOne_lookup_pres _ _ st pidA _ s0 (Or.inl hdy) hs
      · exact commitOne_lookup_pres _ _ st pidA _ s0
          (Or.inr (fun he => hidm (he ▸ ha))) hs)
  have hstep : c ∉ (commitOne (dyingR r2).1 (intentsR r2)
      (List.foldl (commitOne (dyingR r2).1 (intentsR r2))
        { players := r2.players, occ := r2.occupied_set, food := r2.food,
          moves := [], eaten := false } (a1.map (·.player_id))) s0.player_id).occ :=
    commitOne_pop_erases _ _ _ _ s0 c hs0nd h1 hwg htail hcnh
  exact foldl_preserve (fun st : CommitSt => c ∉ st.occ)
    (commitOne (dyingR r2).1 (intentsR r2)) (a2.map (·.player_id)) _ hstep
    (fun st pidA ha hs => commitOne_cell_frame r2 st pidA c
      (hsur pidA (by
        rw [hsplit, List.map_append, List.map_cons]
        exact List.mem_append_right _ (List.mem_cons_of_mem _ ha))) hs)

/-- C3 (amended): two distinct alive snakes (ids distinct, the room free
of benched bots and id-collisions) whose computed next heads coincide are
both marked dying in the tick.  The recorded reason for both is
"head-on" provided the contested cell is in bounds and is not a blocking
body cell (unoccupied, or a tail freed this tick) — otherwise both die
there with reason "body"/"wall" before the head-on scan.  After cleanup
none of the pair's former body cells remains in `occupied_set`, and the
contested cell does not remain either, provided it was not the standing
body cell of a surviving third snake. -/
theorem C3_head_on_symmetry (r : Room) (bd : BotOracle) (sd fd : List Cell)
    (p q : PlayerState)
    (hrun : r.status = "RUNNING")
    (hids : (r.players.map (·.player_id)).Nodup)
    (hNB : noBenchedBots r.players)
    (hp : p ∈ aliveOf (preRoom bd r))
    (hq : q ∈ aliveOf (preRoom bd r))
    (hne : p.player_id ≠ q.player_id)
    (hheads : nextHeadOf p = nextHeadOf q) :
    (p.player_id ∈ (dyingR (preRoom bd r)).1 ∧
     q.player_id ∈ (dyingR (preRoom bd r)).1) ∧
    (¬ outOfBounds (nextHeadOf p) →
      (nextHeadOf p ∉ (preRoom bd r).occupied_set ∨
        nextHeadOf p ∈ tailsR (preRoom bd r)) →
      getReason (dyingR (preRoom bd r)).2 p.player_id = "head-on" ∧
      getReason (dyingR (preRoom bd r)).2 q.player_id = "head-on") ∧
    (∀ z, z ∈ p.body ∨ z ∈ q.body → z ∉ (step bd sd fd r).1.occupied_set) ∧
    ((nextHeadOf p ∉ (preRoom bd r).occupied_set ∨
        nextHeadOf p ∈ tailsR (preRoom bd r)) →
      nextHeadOf p ∉ (step bd sd fd r).1.occupied_set) := by
  have hpids2 : ((preRoom bd r).players.map (·.player_id)).Nodup := by
    unfold preRoom
    dsimp only
    rw [botPhase_ids]
    exact hids
  have halids := aliveOf_ids_nodup (preRoom bd r) hpids2
  have hNB2 : noBenchedBots (preRoom bd r).players := by
    unfold preRoom
    dsimp only
    exact noBenchedBots_botPhase bd _ hNB
  have hNB3 := phase3_noBenched (preRoom bd r) hNB2
  have hprec : p ≠ q := fun he => hne (he ▸ rfl)
  have h2 : 2 ≤ (aliveOf (preRoom bd r)).length := two_mem_le_length _ p q hp hq hprec
  have hstep := step_run bd sd fd r hrun h2
  have hip := intentsR_eq (preRoom bd r) p hp halids
  have hiq := intentsR_eq (preRoom bd r) q hq halids
  have hnp : (intentsR (preRoom bd r) p.player_id).next_head = nextHeadOf p := by
    rw [hip]; rfl
  have hnq : (intentsR (preRoom bd r) q.player_id).next_head = nextHeadOf q := by
    rw [hiq]; rfl
  have hsame : (intentsR (preRoom bd r) q.player_id).next_head
      = (intentsR (preRoom bd r) p.player_id).next_head := by
    rw [hnp, hnq, hheads]
  have hdp : p.player_id ∈ (dyingR (preRoom bd r)).1 := by
    unfold dyingR
    exact computeDying_mem_pair _ _ _ _ p q hp hq (Ne.symm hne) hsame
  have hdq : q.player_id ∈ (dyingR (preRoom bd r)).1 := by
    unfold dyingR
    exact computeDying_mem_pair _ _ _ _ q p hq hp hne hsame.symm
  have hsur : ∀ pid ∈ (aliveOf (preRoom bd r)).map (·.player_id),
      pid ∉ (dyingR (preRoom bd r)).1 →
      (intentsR (preRoom bd r) pid).next_head ≠ nextHeadOf p := by
    intro pid hpidm hpidnd heq
    obtain ⟨a, ha, rfl⟩ := List.mem_map.mp hpidm
    by_cases haq : a.player_id = p.player_id
    · exact hpidnd (haq ▸ hdp)
    · refine hpidnd ?_
      unfold dyingR
      refine computeDying_mem_pair _ _ _ _ a p ha hp
        (fun he => haq he.symm) ?_
      rw [hnp, heq]
  have hlkp : lookupPlayer (phase3 (preRoom bd r)).players p.player_id = some p :=
    phase3_lookup_dying _ _ p hdp
      (lookupPlayer_of_mem_nodup _ p (List.mem_of_mem_filter hp) hpids2)
  have hlkq : lookupPlayer (phase3 (preRoom bd r)).players q.player_id = some q :=
    phase3_lookup_dying _ _ q hdq
      (lookupPlayer_of_mem_nodup _ q (List.mem_of_mem_filter hq) hpids2)
  refine ⟨⟨hdp, hdq⟩, ?_, ?_, ?_⟩
  · intro hok hfree
    have hok' : ¬ outOfBounds (intentsR (preRoom bd r) p.player_id).next_head := by
      rw [hnp]; exact hok
    have hpass : ¬ ((intentsR (preRoom bd r) p.player_id).next_head
        ∈ (preRoom bd r).occupied_set ∧
        (intentsR (preRoom bd r) p.player_id).next_head ∉ tailsR (preRoom bd r)) := by
      rw [hnp]
      rintro ⟨hin, hnotail⟩
      rcases hfree with h | h
      · exact h hin
      · exact hnotail h
    unfold dyingR
    exact computeDying_reasons_pair _ _ _ _ p q hp hq (Ne.symm hne) hsame hok' hpass
  · intro z hz
    rw [hstep]
    show z ∉ (phase4 (preRoom bd r) sd).occ
    rcases hz with hz | hz
    · exact phase4_body_cleanup _ sd p.player_id p hNB3 hdp hlkp z hz
    · exact phase4_body_cleanup _ sd q.player_id q hNB3 hdq hlkq z hz
  · intro hfree
    rw [hstep]
    show nextHeadOf p ∉ (phase4 (preRoom bd r) sd).occ
    rcases hfree with hout | htails
    · exact phase4_cell_mono _ sd _ hNB3 (phase3_cell_not_mem _ _ hsur hout)
    · obtain ⟨s0, hs0, hsome⟩ := (tailsR_mem (preRoom bd r) (nextHeadOf p)).mp htails
      have hieq := intentsR_eq (preRoom bd r) s0 hs0 halids
      have hdec : (intentsR (preRoom bd r) s0.player_id).will_grow = false ∧
          s0.body.getLast? = some (nextHeadOf p) := by
        rw [hieq] at hsome ⊢
        unfold intentOf at hsome ⊢
        dsimp only at hsome ⊢
        by_cases hd : nextHeadOf s0 ∈ (preRoom bd r).food
        · rw [if_pos (decide_eq_true hd)] at hsome
          exact Option.noConfusion hsome
        · rw [if_neg (by simpa using hd)] at hsome
          exact ⟨decide_eq_false hd, hsome⟩
      by_cases hs0d : s0.player_id ∈ (dyingR (preRoom bd r)).1
      · have hcmem : nextHeadOf p ∈ s0.body := by
          obtain ⟨hne2, heq⟩ := List.mem_getLast?_eq_getLast
            (show nextHeadOf p ∈ s0.body.getLast? from hdec.2)
          exact heq ▸ s0.body.getLast_mem hne2
        exact phase4_body_cleanup _ sd s0.player_id s0 hNB3 hs0d
          (phase3_lookup_dying _ _ s0 hs0d
            (lookupPlayer_of_mem_nodup _ s0 (List.mem_of_mem_filter hs0) hpids2))
          _ hcmem
      · have htail : ((intentsR (preRoom bd r) s0.player_id).next_head :: s0.body).getLastD
            (0, 0) = nextHeadOf p := by
          rw [List.getLastD_cons, List.getLastD_eq_getLast?, hdec.2]
          rfl
        exact phase4_cell_mono _ sd _ hNB3
          (phase3_tail_freed _ s0 _ hpids2 hs0 hs0d hdec.1 htail hsur)

/-- Witness for C3: in the two-snake room `c3WRoom` both snakes (ids 1
and 2, contesting the free in-bounds cell (3,2)) die with reason
"head-on", and neither the contested cell nor a former body cell remains
occupied after the tick. -/
theorem C3_head_on_symmetry_witness :
    (c3A.player_id ∈ (dyingR (preRoom noBots c3WRoom)).1 ∧
     c3B.player_id ∈ (dyingR (preRoom noBots c3WRoom)).1) ∧
    getReason (dyingR (preRoom noBots c3WRoom)).2 c3A.player_id = "head-on" ∧
    getReason (dyingR (preRoom noBots c3WRoom)).2 c3B.player_id = "head-on" ∧
    ((2, 2) : Cell) ∉ (step noBots [] [] c3WRoom).1.occupied_set ∧
    nextHeadOf c3A ∉ (step noBots [] [] c3WRoom).1.occupied_set := by
  have h := C3_head_on_symmetry c3WRoom noBots [] [] c3A c3B rfl (by decide)
    (by decide) (by decide) (by decide) (by decide) (by decide)
  have hfree : nextHeadOf c3A ∉ (preRoom noBots c3WRoom).occupied_set ∨
      nextHeadOf c3A ∈ tailsR (preRoom noBots c3WRoom) := Or.inl (by decide)
  have hr := h.2.1 (by decide) hfree
  exact ⟨h.1, hr.1, hr.2, h.2.2.1 (2, 2) (Or.inl (by decide)), h.2.2.2 hfree⟩

/-- Counterexample for C3 as stated: in `c3Room` snakes 1 and 2 contest
the in-bounds cell (3,2), which stands inside the surviving third
snake's body, so both die with reason "body", not "head-on", and the
contested cell is still occupied after the tick. -/
theorem C3_counterexample_body_blocked :
    nextHeadOf c3A = nextHeadOf c3B ∧
    ¬ outOfBounds (nextHeadOf c3A) ∧
    c3A.player_id ∈ (dyingR (preRoom noBots c3Room)).1 ∧
    c3B.player_id ∈ (dyingR (preRoom noBots c3Room)).1 ∧
    getReason (dyingR (preRoom noBots c3Room)).2 c3A.player_id = "body" ∧
    getReason (dyingR (preRoom noBots c3Room)).2 c3B.player_id = "body" ∧
    nextHeadOf c3A ∈ (step noBots [] [] c3Room).1.occupied_set := by
  decide

/-- C10: the reverse check compares against the instantaneous direction,
which each accepted input mutates at once, so two inputs between ticks
can reverse the effective direction: starting right, `d=up` then
`d=left` ends with direction left, the exact reverse of right. -/
theorem C10_two_inputs_reverse_direction :
    (PlayerState.new 7 "h").direction = (1, 0) ∧
    (PlayerState.new 7 "h").alive = true ∧
    (handleInput (handleInput (PlayerState.new 7 "h") "up") "left").direction = (-1, 0) := by
  refine ⟨rfl, rfl, by decide⟩

/-- Reachability is closed under any number of game-loop ticks. -/
theorem Reachable_stepN (n : Nat) (r : Room) (h : Reachable r) :
    Reachable (stepN n r) := by
  induction n generalizing r with
  | zero => exact h
  | succ n ih => exact ih _ (Reachable.stepTick r noBots [] [] h)

/-- Mutating one player in place with an id-preserving function commutes
with filtering that id away. -/
theorem filter_ne_updatePlayer (ps : List PlayerState) (pid : Nat)
    (f : PlayerState → PlayerState) (hf : ∀ p, (f p).player_id = p.player_id) :
    (updatePlayer ps pid f).filter (fun p => p.player_id ≠ pid)
      = ps.filter (fun p => p.player_id ≠ pid) := by
  unfold updatePlayer
  rw [List.filter_map]
  have hq : ((fun p : PlayerState => decide (p.player_id ≠ pid)) ∘
      (fun p => if p.player_id == pid then f p else p))
      = fun p : PlayerState => decide (p.player_id ≠ pid) := by
    funext p
    by_cases h : p.player_id = pid
    · simp [Function.comp, h, hf p]
    · simp [Function.comp, h]
  rw [hq]
  have hid : ∀ x ∈ ps.filter (fun p => p.player_id ≠ pid),
      (if x.player_id == pid then f x else x) = x := by
    intro x hx
    have hmem := List.of_mem_filter hx
    rw [if_neg (by simpa using hmem)]
  rw [List.map_congr_left hid]
  exact List.map_id' _

/-- C6 (amended): host elections, operation by operation.  `end_game`
re-elects the host as the first connected player in map order and leaves
it null when no player is connected (players or not); a non-null host
after `end_game` names a connected present player.  `add_player` hands
the host to the joiner exactly when `host_id` was null.  `remove_player`
while WAITING, when the host leaves, re-elects the first remaining map
entry — connected or not; while RUNNING it never touches `host_id`. -/
theorem C6_host_election (r : Room) (pl : PlayerState) (pid : Nat) :
    ((endGame r).host_id = none ↔ ∀ p ∈ r.players, p.connected = false) ∧
    (∀ h, (endGame r).host_id = some h →
      ∃ p ∈ (endGame r).players, p.player_id = h ∧ p.connected = true) ∧
    ((addPlayer r pl).2.1 = true → r.host_id = none →
      (addPlayer r pl).1.host_id = some pl.player_id) ∧
    ((addPlayer r pl).2.1 = true → r.host_id ≠ none →
      (addPlayer r pl).1.host_id = r.host_id) ∧
    (r.status = "WAITING" → (lookupPlayer r.players pid).isSome = true →
      r.host_id = some pid →
      (removePlayer r pid).host_id =
        ((r.players.filter (fun p => p.player_id ≠ pid)).head?).map (·.player_id)) ∧
    (r.status = "RUNNING" → (removePlayer r pid).host_id = r.host_id) := by
  refine ⟨?_, ?_, ?_, ?_, ?_, ?_⟩
  · unfold endGame
    dsimp only
    rw [head_filter_connected_none_iff]
    constructor
    · intro hall p hp
      have h2 := hall _ (List.mem_map_of_mem (fun p => { p with score := 0 }) hp)
      exact h2
    · intro hall p hp
      obtain ⟨q, hq, rfl⟩ := List.mem_map.mp hp
      exact hall q hq
  · intro h hh
    unfold endGame at hh ⊢
    dsimp only at hh ⊢
    exact head_filter_connected_some _ h hh
  · intro hacc hnone
    unfold addPlayer at hacc ⊢
    by_cases hcap : r.countedPlayerCount ≥ r.capacity
    · rw [if_pos hcap] at hacc
      exact absurd hacc (by simp)
    · rw [if_neg hcap]
      dsimp only
      rw [if_pos hnone]
      split_ifs <;> rfl
  · intro hacc hsome
    unfold addPlayer at hacc ⊢
    by_cases hcap : r.countedPlayerCount ≥ r.capacity
    · rw [if_pos hcap] at hacc
      exact absurd hacc (by simp)
    · rw [if_neg hcap]
      dsimp only
      rw [if_neg hsome]
  · intro hw hlk hhost
    unfold removePlayer
    dsimp only
    rw [if_pos hlk, if_pos hw, if_pos hhost]
    rw [filter_ne_updatePlayer r.players pid
      (fun p => { p with connected := false }) (fun q => rfl)]
    split_ifs <;> rfl
  · intro hr
    unfold removePlayer
    dsimp only
    by_cases hlk2 : (lookupPlayer r.players pid).isSome = true
    · rw [if_pos hlk2,
        if_neg (show ¬ (r.status = "WAITING") from by rw [hr]; decide),
        if_pos hr]
      split_ifs <;> rfl
    · rw [if_neg hlk2]
      split_ifs <;> rfl

/-- Witness for C6: `end_game` on the all-benched room `c6r21` leaves the
host null with two players present; the host leaving the WAITING room
`c6wRoom` hands the host to the disconnected remaining player 2; the
first joiner of a hostless room becomes host. -/
theorem C6_host_election_witness :
    (endGame c6r21).host_id = none ∧
    (removePlayer c6wRoom 1).host_id = some 2 ∧
    (addPlayer { Room.new with status := "WAITING" } (PlayerState.new 7 "n")).1.host_id
      = some 7 := by
  refine ⟨?_, ?_, ?_⟩
  · exact (C6_host_election c6r21 (PlayerState.new 7 "n") 1).1.mpr (by decide)
  · have h := (C6_host_election c6wRoom (PlayerState.new 7 "n") 1).2.2.2.2.1
      rfl (by decide) rfl
    rw [h]
    decide
  · exact (C6_host_election { Room.new with status := "WAITING" }
      (PlayerState.new 7 "n") 1).2.2.1 (by decide) rfl

/-- Counterexample for C6 as stated: the room `c6rBad` is reachable by a
concrete sequence of server operations, holds two players (the two
benched bots), yet its `host_id` is null — the round ended with no
connected player. -/
theorem C6_counterexample_hostless_with_players :
    Reachable c6rBad ∧ c6rBad.players ≠ [] ∧ c6rBad.host_id = none := by
  have h0 : Reachable initRoom := Reachable.init
  have h2 : Reachable c6r2 :=
    Reachable.join _ 2 "h2" (Reachable.join _ 1 "h1" h0)
  have h3 : Reachable c6r3 := Reachable.autoTick c6r2 0 [] [] h2
  have h4 : Reachable c6r4 := Reachable.autoTick c6r3 5 c6sd [] h3
  have h15 : Reachable c6r15 := Reachable_stepN 11 c6r4 h4
  have h16 : Reachable (removePlayer c6r15 1) :=
    Reachable.leave c6r15 1 h15 (by decide)
  have h17 : Reachable c6r17 :=
    Reachable.leave _ 2 h16 (by decide)
  have h18 : Reachable (handleJoin c6r17 3 "h3").1 :=
    Reachable.join c6r17 3 "h3" h17
  have h19 : Reachable c6r19 := Reachable.leave _ 3 h18 (by decide)
  have h20 : Reachable (autoStartTick c6r19 100 [] []) :=
    Reachable.autoTick c6r19 100 [] [] h19
  have h21 : Reachable c6r21 := Reachable.autoTick _ 105 [] [] h20
  exact ⟨Reachable.stepTick c6r21 noBots [] [] h21, by decide, by decide⟩

end Snake
